import Mathlib

/-!
Shallow embedding of the Virality-Engine simulation core
(`services/simulation_service/app/engine/{agent,idea,world,manager}.py`).

Python floats are modelled as `ℚ`; UUIDs as `Nat` (string conversion of a
UUID is injective, so round-trip claims are unaffected); Python `set`s and
`dict`s as lists in insertion order (Python sets/dicts preserve the
operations used by the engine: membership, idempotent add, discard).
Wall-clock timestamps (`datetime.utcnow`) and task objects are outside the
embedding.  All stochastic draws (`random.random`, `random.choice`,
`random.uniform`, `random.randint`, `random.shuffle`) are modelled by an
explicit oracle threaded through the computation: streams of values for
the first four, and an explicit iteration order standing for the result of
the shuffle.
-/

namespace ViralityEngine

/-- `max(0.0, min(1.0, x))` as used throughout the engine. -/
def clamp01 (x : ℚ) : ℚ := max 0 (min 1 x)

/-- `MutationType` enum of `idea.py` (declaration order preserved). -/
inductive MutationType where
  | simplify
  | emotionalize
  | localize
  | polarize
  | memeify
  | rnd
deriving DecidableEq, Repr

/-- `AgentProfile` dataclass of `agent.py`. -/
structure AgentProfile where
  ageGroup : String := "25-34"
  interests : List String := []
  region : String := "NA"
  trustThreshold : ℚ := 1/2
  openness : ℚ := 1/2
  influence : ℚ := 1/10
deriving DecidableEq, Repr

/-- `AgentState` dataclass of `agent.py`. -/
structure AgentState where
  mood : ℚ := 0
  susceptibility : ℚ := 1/2
  lastActiveStep : Nat := 0
  exposureCount : Nat := 0
  adoptionCount : Nat := 0
deriving DecidableEq, Repr

/-- `AgentState.update_susceptibility` (`agent.py` lines 53-60). -/
def AgentState.updateSusceptibility (s : AgentState) (adopted : Bool) : AgentState :=
  if adopted then
    { s with susceptibility := max (1/10) (s.susceptibility * (95/100)) }
  else
    { s with susceptibility := min (9/10) (s.susceptibility * (102/100)) }

/-- `Agent` dataclass of `agent.py`.  `connections` and `beliefs` are
Python sets kept as insertion-ordered duplicate-free lists; `ideaExposures`
is the `idea_id -> count` dict kept as an association list. -/
structure Agent where
  id : Nat
  worldId : Nat
  profile : AgentProfile := {}
  state : AgentState := {}
  connections : List Nat := []
  beliefs : List Nat := []
  ideaExposures : List (Nat × Nat) := []
  memoryRefs : List String := []
deriving DecidableEq, Repr

namespace Agent

/-- `Agent.add_connection`: adds unless it is the agent's own id (set add
is idempotent). -/
def addConnection (a : Agent) (agentId : Nat) : Agent :=
  if agentId ≠ a.id then
    if agentId ∈ a.connections then a
    else { a with connections := a.connections ++ [agentId] }
  else a

/-- `Agent.has_idea`. -/
def hasIdea (a : Agent) (ideaId : Nat) : Bool := ideaId ∈ a.beliefs

/-- Association-list update used to model `self.idea_exposures[idea_id] = current + 1`. -/
def setExposure : List (Nat × Nat) → Nat → Nat → List (Nat × Nat)
  | [], k, v => [(k, v)]
  | (k', v') :: rest, k, v =>
    if k' = k then (k, v) :: rest else (k', v') :: setExposure rest k v

/-- `Agent.expose_to_idea`: bumps the total exposure counter and the
per-idea count, returning the new per-idea count. -/
def exposeToIdea (a : Agent) (ideaId : Nat) : Agent × Nat :=
  let current := ((a.ideaExposures.lookup ideaId).getD 0)
  ({ a with
      state := { a.state with exposureCount := a.state.exposureCount + 1 },
      ideaExposures := setExposure a.ideaExposures ideaId (current + 1) },
   current + 1)

/-- `Agent.adopt_idea`: returns the updated agent and whether the idea was
newly adopted. -/
def adoptIdea (a : Agent) (ideaId : Nat) : Agent × Bool :=
  if ideaId ∈ a.beliefs then (a, false)
  else
    ({ a with
        beliefs := a.beliefs ++ [ideaId],
        state :=
          ({ a.state with
              adoptionCount := a.state.adoptionCount + 1 }).updateSusceptibility true },
     true)

/-- `Agent.forget_idea`: returns the updated agent and whether the idea was
present. -/
def forgetIdea (a : Agent) (ideaId : Nat) : Agent × Bool :=
  if ideaId ∈ a.beliefs then
    ({ a with beliefs := a.beliefs.erase ideaId }, true)
  else (a, false)

/-- `Agent.calculate_idea_relevance` (`agent.py` lines 182-196).  The
Python `set(idea_tags) & set(interests)` intersection is modelled by
deduplicating the tag list and filtering it by membership in the interest
list. -/
def calculateIdeaRelevance (a : Agent) (ideaTags : List String) : ℚ :=
  if ideaTags = [] ∨ a.profile.interests = [] then 3/10
  else
    let overlap := ideaTags.dedup.filter (fun t => t ∈ a.profile.interests)
    if overlap = [] then 2/10
    else
      let relevance := (overlap.length : ℚ) / (max ideaTags.length a.profile.interests.length : ℚ)
      2/10 + relevance * (8/10)

end Agent

/-- `IdeaTarget` dataclass of `idea.py`. -/
structure IdeaTarget where
  ageGroups : List String := []
  interests : List String := []
  regions : List String := []
deriving DecidableEq, Repr

/-- Error kind raised by `Idea.create_mutation`
(`ValueError("Idea has exceeded mutation budget")`; the spec calls the
kind `BudgetExhausted`). -/
inductive IdeaError where
  | budgetExhausted
deriving DecidableEq, Repr

/-- `Idea` dataclass of `idea.py` with the Python field defaults.
`createdAt` stands for the `datetime` timestamp (identity round-trip via
`isoformat`/`fromisoformat`). -/
structure Idea where
  id : Nat
  creatorId : Nat := 0
  worldId : Nat := 0
  text : String := ""
  tags : List String := []
  mediaRefs : List String := []
  target : IdeaTarget := {}
  viralityScore : ℚ := 2/10
  emotionalValence : ℚ := 1/2
  complexity : ℚ := 3/10
  parentId : Option Nat := none
  mutationType : Option MutationType := none
  generation : Nat := 0
  mutationCount : Nat := 0
  mutationBudget : Nat := 3
  embeddingId : Option String := none
  adopterCount : Nat := 0
  reach : Nat := 0
  rejectionCount : Nat := 0
  createdAt : Nat := 0
deriving DecidableEq, Repr

namespace Idea

/-- `Idea.adoption_rate` property. -/
def adoptionRate (i : Idea) : ℚ :=
  if i.reach = 0 then 0 else (i.adopterCount : ℚ) / (i.reach : ℚ)

/-- `Idea.effective_virality` property (`idea.py` lines 122-129). -/
def effectiveVirality (i : Idea) : ℚ :=
  i.viralityScore * (1 - i.complexity * (1/2))

/-- `Idea.can_mutate` property. -/
def canMutate (i : Idea) : Prop := i.mutationCount < i.mutationBudget

instance (i : Idea) : Decidable i.canMutate := by unfold canMutate; infer_instance

/-- `Idea.record_exposure`. -/
def recordExposure (i : Idea) : Idea := { i with reach := i.reach + 1 }

/-- `Idea.record_adoption`. -/
def recordAdoption (i : Idea) : Idea := { i with adopterCount := i.adopterCount + 1 }

/-- `Idea.record_rejection`. -/
def recordRejection (i : Idea) : Idea := { i with rejectionCount := i.rejectionCount + 1 }

/-- `Idea.create_mutation` (`idea.py` lines 148-194).  The parent is
mutated in place in Python, so the successful result carries both the
updated parent and the mutant; `freshId` stands for the `uuid4()` drawn
for the mutant. -/
def createMutation (i : Idea) (freshId : Nat) (mutationType : MutationType)
    (newText : String) (viralityChange : ℚ := 0) (emotionalChange : ℚ := 0) :
    Except IdeaError (Idea × Idea) :=
  if ¬i.canMutate then .error .budgetExhausted
  else
    let parent := { i with mutationCount := i.mutationCount + 1 }
    let mutant : Idea :=
      { id := freshId,
        creatorId := i.creatorId,
        worldId := i.worldId,
        text := newText,
        tags := i.tags,
        mediaRefs := i.mediaRefs,
        target := { ageGroups := i.target.ageGroups,
                    interests := i.target.interests,
                    regions := i.target.regions },
        viralityScore := clamp01 (i.viralityScore + viralityChange),
        emotionalValence := clamp01 (i.emotionalValence + emotionalChange),
        complexity := i.complexity,
        parentId := some i.id,
        mutationType := some mutationType,
        generation := i.generation + 1,
        mutationBudget := i.mutationBudget }
    .ok (parent, mutant)

/-- `Idea.calculate_spread_probability` (`idea.py` lines 196-223). -/
def calculateSpreadProbability (i : Idea) (senderInfluence receiverOpenness
    relevance : ℚ) (trustFactor : ℚ := 1) : ℚ :=
  clamp01 (i.effectiveVirality * senderInfluence * receiverOpenness
    * relevance * trustFactor * (1/2 + i.emotionalValence * (1/2)))

end Idea

/-- The dictionary produced by `Agent.to_dict` (`agent.py` lines 198-220):
one field per key; `str(uuid)` is modelled by the id itself.  Note the
Python dict has *no* `idea_exposures` and no `memory_refs` entry. -/
structure AgentDict where
  id : Nat
  worldId : Nat
  profile : AgentProfile
  state : AgentState
  connections : List Nat
  beliefs : List Nat
deriving DecidableEq, Repr

/-- `Agent.to_dict`. -/
def Agent.toDict (a : Agent) : AgentDict :=
  { id := a.id,
    worldId := a.worldId,
    profile := { ageGroup := a.profile.ageGroup,
                 interests := a.profile.interests,
                 region := a.profile.region,
                 trustThreshold := a.profile.trustThreshold,
                 openness := a.profile.openness,
                 influence := a.profile.influence },
    state := { mood := a.state.mood,
               susceptibility := a.state.susceptibility,
               lastActiveStep := a.state.lastActiveStep,
               exposureCount := a.state.exposureCount,
               adoptionCount := a.state.adoptionCount },
    connections := a.connections,
    beliefs := a.beliefs }

/-- `Agent.from_dict` (`agent.py` lines 222-246): constructs the agent from
the dict fields; `idea_exposures` and `memory_refs` fall back to the
dataclass defaults (empty). -/
def Agent.fromDict (d : AgentDict) : Agent :=
  { id := d.id,
    worldId := d.worldId,
    profile := { ageGroup := d.profile.ageGroup,
                 interests := d.profile.interests,
                 region := d.profile.region,
                 trustThreshold := d.profile.trustThreshold,
                 openness := d.profile.openness,
                 influence := d.profile.influence },
    state := { mood := d.state.mood,
               susceptibility := d.state.susceptibility,
               lastActiveStep := d.state.lastActiveStep,
               exposureCount := d.state.exposureCount,
               adoptionCount := d.state.adoptionCount },
    connections := d.connections,
    beliefs := d.beliefs }

/-- The dictionary produced by `Idea.to_dict` (`idea.py` lines 225-253).
It carries every `Idea` field plus the derived `adoption_rate` (ignored by
`from_dict`). -/
structure IdeaDict where
  id : Nat
  creatorId : Nat
  worldId : Nat
  text : String
  tags : List String
  mediaRefs : List String
  target : IdeaTarget
  viralityScore : ℚ
  emotionalValence : ℚ
  complexity : ℚ
  parentId : Option Nat
  mutationType : Option MutationType
  generation : Nat
  mutationCount : Nat
  mutationBudget : Nat
  embeddingId : Option String
  adopterCount : Nat
  reach : Nat
  rejectionCount : Nat
  adoptionRateField : ℚ
  createdAt : Nat
deriving DecidableEq, Repr

/-- `Idea.to_dict`. -/
def Idea.toDict (i : Idea) : IdeaDict :=
  { id := i.id,
    creatorId := i.creatorId,
    worldId := i.worldId,
    text := i.text,
    tags := i.tags,
    mediaRefs := i.mediaRefs,
    target := { ageGroups := i.target.ageGroups,
                interests := i.target.interests,
                regions := i.target.regions },
    viralityScore := i.viralityScore,
    emotionalValence := i.emotionalValence,
    complexity := i.complexity,
    parentId := i.parentId,
    mutationType := i.mutationType,
    generation := i.generation,
    mutationCount := i.mutationCount,
    mutationBudget := i.mutationBudget,
    embeddingId := i.embeddingId,
    adopterCount := i.adopterCount,
    reach := i.reach,
    rejectionCount := i.rejectionCount,
    adoptionRateField := i.adoptionRate,
    createdAt := i.createdAt }

/-- `Idea.from_dict` (`idea.py` lines 255-283). -/
def Idea.fromDict (d : IdeaDict) : Idea :=
  { id := d.id,
    creatorId := d.creatorId,
    worldId := d.worldId,
    text := d.text,
    tags := d.tags,
    mediaRefs := d.mediaRefs,
    target := { ageGroups := d.target.ageGroups,
                interests := d.target.interests,
                regions := d.target.regions },
    viralityScore := d.viralityScore,
    emotionalValence := d.emotionalValence,
    complexity := d.complexity,
    parentId := d.parentId,
    mutationType := d.mutationType,
    generation := d.generation,
    mutationCount := d.mutationCount,
    mutationBudget := d.mutationBudget,
    embeddingId := d.embeddingId,
    adopterCount := d.adopterCount,
    reach := d.reach,
    rejectionCount := d.rejectionCount,
    createdAt := d.createdAt }

/-- `WorldStatus` enum of `world.py`. -/
inductive WorldStatus where
  | created
  | running
  | paused
  | completed
  | archived
deriving DecidableEq, Repr

/-- `NetworkType` enum of `world.py`. -/
inductive NetworkType where
  | scaleFree
  | smallWorld
  | randomGraph
  | geoLocal
deriving DecidableEq, Repr

/-- `WorldConfig` dataclass of `world.py`. -/
structure WorldConfig where
  populationSize : Nat := 10000
  networkType : NetworkType := .scaleFree
  networkDensity : ℚ := 1/10
  mutationRate : ℚ := 1/100
  decayRate : ℚ := 1/1000
  timeStepMs : Nat := 100
  maxSteps : Option Nat := none
  regions : List String := ["NA", "EU", "ASIA", "LATAM", "AFRICA", "OCEANIA"]
  regionWeights : List ℚ := [2/10, 25/100, 35/100, 1/10, 5/100, 5/100]
deriving DecidableEq, Repr

/-- `SpreadEvent` dataclass of `world.py` (the wall-clock `timestamp` is
outside the embedding). -/
structure SpreadEvent where
  ideaId : Nat
  fromAgentId : Nat
  toAgentId : Nat
  probability : ℚ
  accepted : Bool
  step : Nat
deriving DecidableEq, Repr

/-- Oracle for the process-wide `random` module: a stream for
`random.random()` draws, one for the `random.choice(list(MutationType))`
pick, one for `random.uniform(-0.05, 0.1)` draws, and one for
`random.randint(0, n-1)` draws.  Exhausted streams yield a default (a
modelling choice; claims quantify over the oracle). -/
structure Rand where
  floats : List ℚ := []
  choices : List MutationType := []
  uniforms : List ℚ := []
  ints : List Nat := []
deriving DecidableEq, Repr

/-- Pop a `random.random()` draw (default 1, which rejects every
comparison `u < p` with `p ≤ 1`). -/
def Rand.nextFloat (r : Rand) : ℚ × Rand :=
  (r.floats.headD 1, { r with floats := r.floats.tail })

/-- Pop a `random.choice(list(MutationType))` draw. -/
def Rand.nextChoice (r : Rand) : MutationType × Rand :=
  (r.choices.headD .simplify, { r with choices := r.choices.tail })

/-- Pop a `random.uniform(-0.05, 0.1)` draw. -/
def Rand.nextUniform (r : Rand) : ℚ × Rand :=
  (r.uniforms.headD 0, { r with uniforms := r.uniforms.tail })

/-- Pop a `random.randint` draw. -/
def Rand.nextInt (r : Rand) : Nat × Rand :=
  (r.ints.headD 0, { r with ints := r.ints.tail })

/-- The `World` object of `world.py`.  `agents` and `ideas` are the
insertion-ordered id-keyed dicts; `networkEdges` is the edge set of the
`networkx` graph `self.network`; `nextId` stands for the `uuid4()` source
used for mutant ideas. -/
structure World where
  id : Nat
  creatorId : Nat := 0
  name : String := ""
  description : String := ""
  config : WorldConfig := {}
  isPublic : Bool := true
  status : WorldStatus := .created
  currentStep : Nat := 0
  agents : List Agent := []
  ideas : List Idea := []
  networkEdges : List (Nat × Nat) := []
  recentEvents : List SpreadEvent := []
  maxRecentEvents : Nat := 1000
  totalSpreadEvents : Nat := 0
  totalAdoptions : Nat := 0
  totalMutations : Nat := 0
  nextId : Nat := 0
deriving DecidableEq, Repr

/-- Counters accumulated by `World.run_step`. -/
structure StepAcc where
  spreadAttempts : Nat := 0
  adoptions : Nat := 0
  mutations : Nat := 0
  decays : Nat := 0
deriving DecidableEq, Repr

/-- The dict returned by `World.run_step` (`duration_ms` is wall clock and
outside the embedding); `SimulationManager.step_world` returns the same
shape for a missing world. -/
inductive StepResult where
  | errorMsg (msg : String)
  | stats (step spreadAttempts adoptions mutations decays activeAgents : Nat)
deriving DecidableEq, Repr

namespace World

/-- `self.agents.get(agent_id)`. -/
def lookupAgent (w : World) (agentId : Nat) : Option Agent :=
  w.agents.find? (fun a => a.id = agentId)

/-- `self.ideas.get(idea_id)`. -/
def lookupIdea (w : World) (ideaId : Nat) : Option Idea :=
  w.ideas.find? (fun i => i.id = ideaId)

/-- In-place mutation of the agent object stored under `agentId`. -/
def updateAgent (w : World) (agentId : Nat) (f : Agent → Agent) : World :=
  { w with agents := w.agents.map (fun a => if a.id = agentId then f a else a) }

/-- In-place mutation of the idea object stored under `ideaId`. -/
def updateIdea (w : World) (ideaId : Nat) (f : Idea → Idea) : World :=
  { w with ideas := w.ideas.map (fun i => if i.id = ideaId then f i else i) }

/-- `World._record_event` (`world.py` lines 432-439): append, bump the
total, keep only the last `max_recent_events` entries. -/
def recordEvent (w : World) (e : SpreadEvent) : World :=
  let evs := w.recentEvents ++ [e]
  { w with
      recentEvents :=
        if w.maxRecentEvents < evs.length then evs.drop (evs.length - w.maxRecentEvents)
        else evs,
      totalSpreadEvents := w.totalSpreadEvents + 1 }

/-- The per-kind `(new_text, virality_change, emotional_change)` table of
`World._trigger_mutation` (`world.py` lines 396-418).  `LOCALIZE` and
`RANDOM` both land in the final `else` branch, which draws the two changes
from `random.uniform(-0.05, 0.1)`. -/
def mutationChanges (text : String) (mutationType : MutationType) (r : Rand) :
    (String × ℚ × ℚ) × Rand :=
  match mutationType with
  | .simplify => (("[Simplified] " ++ text.take 100 ++ "...", 5/100, 0), r)
  | .emotionalize => (("[Emotional] " ++ text, 2/100, 1/10), r)
  | .polarize => (("[Polarized] " ++ text, 8/100, 15/100), r)
  | .memeify => (("[Meme] " ++ text.take 50 ++ "... 🔥", 1/10, 0), r)
  | _ =>
    let (u1, r1) := r.nextUniform
    let (u2, r2) := r1.nextUniform
    (("[Variant] " ++ text, u1, u2), r2)

/-- `World._trigger_mutation` (`world.py` lines 383-430): bail out when the
budget is spent, pick a kind, build the mutant via `Idea.create_mutation`
(whose `ValueError` is caught and turned into `None`), and insert it into
the catalog.  `idea` is the live object stored under its id. -/
def triggerMutation (w : World) (idea : Idea) (r : Rand) :
    World × Rand × Option Nat :=
  if ¬idea.canMutate then (w, r, none)
  else
    let (mutationType, r1) := r.nextChoice
    let ((newText, viralityChange, emotionalChange), r2) :=
      mutationChanges idea.text mutationType r1
    match idea.createMutation w.nextId mutationType newText viralityChange emotionalChange with
    | .ok (parent, mutant) =>
      ({ w with
          ideas := (w.ideas.map (fun i => if i.id = idea.id then parent else i)) ++ [mutant],
          nextId := w.nextId + 1 },
       r2, some mutant.id)
    | .error _ => (w, r2, none)

/-- The `mutant = self._trigger_mutation(idea); if mutant:` bookkeeping of
`World.run_step` (`world.py` lines 349-352): count the mutation only when
one was produced. -/
def afterMutationAttempt : World × Rand × Option Nat → StepAcc → World × Rand × StepAcc
  | (w, r, some _), acc =>
    ({ w with totalMutations := w.totalMutations + 1 }, r,
     { acc with mutations := acc.mutations + 1 })
  | (w, r, none), acc => (w, r, acc)

/-- Body of the innermost loop of `World.run_step` (`world.py` lines
309-354): one spread attempt from the spreader towards `connectionId`.
`influence` is the spreader's `profile.influence` (immutable during a
tick, read from the live object).  The idea object is re-read from the
catalog because earlier iterations mutate it in place. -/
def spreadStep (w : World) (spreaderId : Nat) (influence : ℚ)
    (ideaId : Nat) (connectionId : Nat) (r : Rand) (acc : StepAcc) :
    World × Rand × StepAcc :=
  match w.lookupAgent connectionId, w.lookupIdea ideaId with
  | some receiver, some idea =>
    if receiver.hasIdea ideaId then (w, r, acc)
    else
      let relevance := receiver.calculateIdeaRelevance idea.tags
      let probability :=
        idea.calculateSpreadProbability influence receiver.profile.openness relevance
      let acc1 := { acc with spreadAttempts := acc.spreadAttempts + 1 }
      let w1 := w.updateIdea ideaId Idea.recordExposure
      let w2 := w1.updateAgent connectionId (fun a => (a.exposeToIdea ideaId).1)
      let (u, r1) := r.nextFloat
      if u < probability then
        let w3 := w2.updateAgent connectionId (fun a => (a.adoptIdea ideaId).1)
        let w4 := w3.updateIdea ideaId Idea.recordAdoption
        let acc2 := { acc1 with adoptions := acc1.adoptions + 1 }
        let w5 := { w4 with totalAdoptions := w4.totalAdoptions + 1 }
        let w6 := w5.recordEvent
          { ideaId := ideaId, fromAgentId := spreaderId, toAgentId := connectionId,
            probability := probability, accepted := true, step := w5.currentStep }
        match w6.lookupIdea ideaId with
        | some idea2 =>
          if idea2.canMutate then
            let (u2, r2) := r1.nextFloat
            if u2 < w6.config.mutationRate then
              afterMutationAttempt (w6.triggerMutation idea2 r2) acc2
            else (w6, r2, acc2)
          else (w6, r1, acc2)
        | none => (w6, r1, acc2)
      else
        (w2.updateIdea ideaId Idea.recordRejection, r1, acc1)
  | _, _ => (w, r, acc)

/-- `for connection_id in spreader.connections:` loop. -/
def spreadConnections (w : World) (spreaderId : Nat) (influence : ℚ)
    (ideaId : Nat) : List Nat → Rand → StepAcc → World × Rand × StepAcc
  | [], r, acc => (w, r, acc)
  | c :: cs, r, acc =>
    let (w1, r1, acc1) := w.spreadStep spreaderId influence ideaId c r acc
    spreadConnections w1 spreaderId influence ideaId cs r1 acc1

/-- `for idea_id in list(spreader.beliefs):` loop; a belief whose idea is
missing from the catalog is skipped. -/
def spreadBeliefs (w : World) (spreaderId : Nat) (influence : ℚ)
    (connections : List Nat) : List Nat → Rand → StepAcc → World × Rand × StepAcc
  | [], r, acc => (w, r, acc)
  | ideaId :: rest, r, acc =>
    match w.lookupIdea ideaId with
    | none => spreadBeliefs w spreaderId influence connections rest r acc
    | some _ =>
      let (w1, r1, acc1) := spreadConnections w spreaderId influence ideaId connections r acc
      spreadBeliefs w1 spreaderId influence connections rest r1 acc1

/-- One spreader's turn: its belief list and connection set are captured
when the turn starts (`list(spreader.beliefs)`). -/
def spreadFromAgent (w : World) (spreaderId : Nat) (r : Rand) (acc : StepAcc) :
    World × Rand × StepAcc :=
  match w.lookupAgent spreaderId with
  | none => (w, r, acc)
  | some sp => w.spreadBeliefs spreaderId sp.profile.influence sp.connections sp.beliefs r acc

/-- `for spreader in spreaders:` loop; `order` is the shuffled list of
spreader ids produced at the start of the tick. -/
def runSpreaders (w : World) : List Nat → Rand → StepAcc → World × Rand × StepAcc
  | [], r, acc => (w, r, acc)
  | sid :: rest, r, acc =>
    let (w1, r1, acc1) := w.spreadFromAgent sid r acc
    runSpreaders w1 rest r1 acc1

/-- Decay pass over one agent's captured belief list (`world.py` lines
357-361). -/
def decayBeliefs (w : World) (agentId : Nat) : List Nat → Rand → StepAcc → World × Rand × StepAcc
  | [], r, acc => (w, r, acc)
  | ideaId :: rest, r, acc =>
    let (u, r1) := r.nextFloat
    if u < w.config.decayRate then
      let forgot := ((w.lookupAgent agentId).map (fun a => (a.forgetIdea ideaId).2)).getD false
      let w1 := w.updateAgent agentId (fun a => (a.forgetIdea ideaId).1)
      decayBeliefs w1 agentId rest r1
        (if forgot then { acc with decays := acc.decays + 1 } else acc)
    else
      decayBeliefs w agentId rest r1 acc

/-- `for agent in self.agents.values():` decay loop. -/
def decayAgents (w : World) : List Nat → Rand → StepAcc → World × Rand × StepAcc
  | [], r, acc => (w, r, acc)
  | aid :: rest, r, acc =>
    let beliefsNow := ((w.lookupAgent aid).map (fun a => a.beliefs)).getD []
    let (w1, r1, acc1) := w.decayBeliefs aid beliefsNow r acc
    decayAgents w1 rest r1 acc1

/-- The spreader set computed at the start of a tick: ids of agents with a
non-empty belief set, in agent-map order (before the shuffle). -/
def spreaderIds (w : World) : List Nat :=
  (w.agents.filter (fun a => ¬a.beliefs.isEmpty)).map (fun a => a.id)

/-- `World.run_step` (`world.py` lines 275-381).  `order` is the shuffled
spreader list (theorems constrain it to be a permutation of
`spreaderIds`); the `max_steps` completion test mirrors Python truthiness:
`max_steps = None` and `max_steps = 0` never complete. -/
def runStep (w : World) (order : List Nat) (r : Rand) : World × Rand × StepResult :=
  if w.status ≠ .running then (w, r, .errorMsg "World is not running")
  else
    let (w1, r1, acc1) := w.runSpreaders order r {}
    let (w2, r2, acc2) := w1.decayAgents (w1.agents.map (fun a => a.id)) r1 acc1
    let w3 := { w2 with currentStep := w2.currentStep + 1 }
    let w4 :=
      match w3.config.maxSteps with
      | some m => if 0 < m ∧ m ≤ w3.currentStep then { w3 with status := .completed } else w3
      | none => w3
    (w4, r2,
     .stats w4.currentStep acc2.spreadAttempts acc2.adoptions acc2.mutations acc2.decays
       ((w4.agents.filter (fun a => ¬a.beliefs.isEmpty)).length))

/-- The truthy completion test of `World.run_step` (`world.py` line 367):
`max_steps` is set, non-zero (Python truthiness) and reached. -/
def completionDue (w : World) : Prop :=
  match w.config.maxSteps with
  | some m => 0 < m ∧ m ≤ w.currentStep
  | none => False

instance (w : World) : Decidable w.completionDue := by
  unfold World.completionDue
  cases w.config.maxSteps with
  | none => exact isFalse (fun h => h)
  | some m => exact instDecidableAnd

/-- The graph-relevant view of the agent map: each agent's id and
connection set. -/
def agentKeys (w : World) : List (Nat × List Nat) :=
  w.agents.map (fun a => (a.id, a.connections))

/-- Invariant of §8: every graph edge is mirrored in both endpoints'
connection sets, and no agent is its own connection. -/
def networkInvariant (w : World) : Prop :=
  (∀ p ∈ w.networkEdges,
    (∃ a, a ∈ w.agents ∧ a.id = p.1 ∧ p.2 ∈ a.connections) ∧
    (∃ b, b ∈ w.agents ∧ b.id = p.2 ∧ p.1 ∈ b.connections)) ∧
  (∀ a ∈ w.agents, a.id ∉ a.connections)

instance (w : World) : Decidable w.networkInvariant := by
  unfold World.networkInvariant
  exact instDecidableAnd

/-- Iterated ticks: each entry of `ticks` supplies one tick's shuffled
spreader order and random draws (the loop of
`SimulationManager._run_world_loop`). -/
def runTicks (w : World) : List (List Nat × Rand) → World
  | [] => w
  | t :: ts => runTicks (w.runStep t.1 t.2).1 ts

/-- `World.start` (`world.py` lines 488-492): only `CREATED` moves to
`RUNNING`. -/
def start (w : World) : World :=
  if w.status = .created then { w with status := .running } else w

/-- `World.pause` (`world.py` lines 494-497). -/
def pause (w : World) : World :=
  if w.status = .running then { w with status := .paused } else w

/-- `World.resume` (`world.py` lines 499-502). -/
def resume (w : World) : World :=
  if w.status = .paused then { w with status := .running } else w

/-- The edge-mirroring loop of `World._create_network` (`world.py` lines
218-225): each temp-graph edge `(i, j)` is mapped through `agent_ids`,
added to the graph, and mirrored into both agents' connection sets. -/
def applyTempEdges (w : World) (agentIds : List Nat) : List (Nat × Nat) → World
  | [] => w
  | (i, j) :: rest =>
    let u := agentIds.getD i 0
    let v := agentIds.getD j 0
    let w1 := { w with networkEdges := w.networkEdges ++ [(u, v)] }
    let w2 := w1.updateAgent u (fun a => a.addConnection v)
    let w3 := w2.updateAgent v (fun a => a.addConnection u)
    applyTempEdges w3 agentIds rest

/-- `World._create_network` after the temp graph has been generated: the
generator output (Barabási–Albert / Watts–Strogatz / Erdős–Rényi from
`networkx`, or the GEO_LOCAL loop below) is passed in as `tempEdges` over
agent indices `0..n-1`. -/
def createNetwork (w : World) (tempEdges : List (Nat × Nat)) : World :=
  w.applyTempEdges (w.agents.map (fun a => a.id)) tempEdges

end World

/-- Inner candidate loop of the GEO_LOCAL branch of
`World._create_network` (`world.py` lines 202-216) for a fixed agent
index `i`: draw a candidate `j`, skip when `i == j`, otherwise connect
with probability 0.7 (same region) or 0.3 (different region).  `regions`
lists each agent's region by index; `randint(0, n-1)` is modelled by a
drawn value reduced mod `n`. -/
def geoLocalAttempts (regions : List String) (n : Nat) (i : Nat) :
    Nat → Rand → List (Nat × Nat) → List (Nat × Nat) × Rand
  | 0, r, es => (es, r)
  | k + 1, r, es =>
    let (jraw, r1) := r.nextInt
    let j := jraw % n
    if i ≠ j then
      let threshold : ℚ := if regions.getD i "" = regions.getD j "" then 7/10 else 3/10
      let (u, r2) := r1.nextFloat
      if u < threshold then geoLocalAttempts regions n i k r2 (es ++ [(i, j)])
      else geoLocalAttempts regions n i k r2 es
    else geoLocalAttempts regions n i k r1 es

/-- Outer loop of the GEO_LOCAL branch: for each agent index, attempt
`max(1, int(n * density))` candidate connections. -/
def geoLocalEdgesAux (regions : List String) (n : Nat) (connectionsToMake : Nat) :
    List Nat → Rand → List (Nat × Nat) → List (Nat × Nat) × Rand
  | [], r, es => (es, r)
  | i :: rest, r, es =>
    let (es1, r1) := geoLocalAttempts regions n i connectionsToMake r es
    geoLocalEdgesAux regions n connectionsToMake rest r1 es1

/-- The GEO_LOCAL temp graph of `World._create_network`. -/
def geoLocalTempEdges (regions : List String) (n : Nat) (density : ℚ) (r : Rand) :
    List (Nat × Nat) × Rand :=
  let connectionsToMake := max 1 (Int.toNat ⌊(n : ℚ) * density⌋)
  geoLocalEdgesAux regions n connectionsToMake (List.range n) r []

/-- `SimulationManager` of `manager.py`.  `worlds` is the id-keyed dict in
insertion order; `worldTasks` records which world ids currently hold a
loop-task handle (the task object itself is outside the embedding). -/
structure SimulationManager where
  maxConcurrentWorlds : Nat := 10
  worlds : List World := []
  worldTasks : List Nat := []
  managerRunning : Bool := false
deriving DecidableEq, Repr

namespace SimulationManager

/-- `self.worlds.get(world_id)`. -/
def lookupWorld (m : SimulationManager) (worldId : Nat) : Option World :=
  m.worlds.find? (fun w => w.id = worldId)

/-- In-place mutation of the world object stored under `worldId`. -/
def updateWorld (m : SimulationManager) (worldId : Nat) (f : World → World) :
    SimulationManager :=
  { m with worlds := m.worlds.map (fun w => if w.id = worldId then f w else w) }

/-- `self.world_tasks[world_id] = task`. -/
def addTask (m : SimulationManager) (worldId : Nat) : SimulationManager :=
  if worldId ∈ m.worldTasks then m
  else { m with worldTasks := m.worldTasks ++ [worldId] }

/-- `self.world_tasks.pop(world_id, None)` + cancellation. -/
def removeTask (m : SimulationManager) (worldId : Nat) : SimulationManager :=
  { m with worldTasks := m.worldTasks.erase worldId }

/-- `SimulationManager.start_world` (`manager.py` lines 146-167): missing
world → `False`; already `RUNNING` → `True` with no change; otherwise call
`World.start` (which only moves `CREATED` to `RUNNING`) and register a
loop task. -/
def startWorld (m : SimulationManager) (worldId : Nat) : SimulationManager × Bool :=
  match m.lookupWorld worldId with
  | none => (m, false)
  | some w =>
    if w.status = .running then (m, true)
    else ((m.updateWorld worldId World.start).addTask worldId, true)

/-- `SimulationManager.stop_world` (`manager.py` lines 169-192): missing
world → `False`; otherwise `World.pause` and cancel any loop task. -/
def stopWorld (m : SimulationManager) (worldId : Nat) : SimulationManager × Bool :=
  match m.lookupWorld worldId with
  | none => (m, false)
  | some _ => ((m.updateWorld worldId World.pause).removeTask worldId, true)

/-- The `for _ in range(steps)` loop of `SimulationManager.step_world`;
each sub-step consumes the next shuffle from `orders`. -/
def runStepsN : World → Nat → List (List Nat) → Rand → List StepResult →
    World × Rand × List StepResult
  | w, 0, _, r, results => (w, r, results)
  | w, n + 1, orders, r, results =>
    let (w1, r1, res) := w.runStep (orders.headD []) r
    runStepsN w1 n orders.tail r1 (results ++ [res])

/-- `SimulationManager.step_world` (`manager.py` lines 194-225): force the
status to `RUNNING`, run `steps` sub-steps, then restore `PAUSED` only if
the world was paused before the call. -/
def stepWorld (m : SimulationManager) (worldId : Nat) (steps : Nat)
    (orders : List (List Nat)) (r : Rand) :
    SimulationManager × Rand × List StepResult :=
  match m.lookupWorld worldId with
  | none => (m, r, [.errorMsg "World not found"])
  | some w =>
    let originalStatus := w.status
    let w1 := { w with status := .running }
    let (w2, r2, results) := runStepsN w1 steps orders r []
    let w3 := if originalStatus = .paused then { w2 with status := .paused } else w2
    ({ m with worlds := m.worlds.map (fun v => if v.id = worldId then w3 else v) }, r2, results)

end SimulationManager

/-- C6: for every idea and all inputs, the spread probability used by the
tick equals `virality_score · (1 − 0.5·complexity) · sender_influence ·
receiver_openness · relevance · trust_factor · (0.5 + 0.5·emotional_valence)`
clamped to `[0,1]`. -/
theorem spread_probability_formula (i : Idea) (senderInfluence receiverOpenness
    relevance trustFactor : ℚ) :
    i.calculateSpreadProbability senderInfluence receiverOpenness relevance trustFactor =
      clamp01 (i.viralityScore * (1 - (1/2) * i.complexity) * senderInfluence
        * receiverOpenness * relevance * trustFactor
        * (1/2 + (1/2) * i.emotionalValence)) := by
  unfold Idea.calculateSpreadProbability Idea.effectiveVirality
  exact congrArg clamp01 (by ring)

/-- C7: idea relevance is 0.3 when the tag list or the interest list is
empty, 0.2 when the interest overlap `O` is empty, and
`0.2 + 0.8 · |O| / max(|tags|, |interests|)` otherwise (with `O` the set
intersection and the lengths taken on the input lists). -/
theorem idea_relevance_formula (a : Agent) (tags : List String) :
    a.calculateIdeaRelevance tags =
      if tags = [] ∨ a.profile.interests = [] then 3/10
      else if tags.toFinset ∩ a.profile.interests.toFinset = ∅ then 2/10
      else 2/10 + (8/10) *
          (((tags.toFinset ∩ a.profile.interests.toFinset).card : ℚ) /
            (max tags.length a.profile.interests.length : ℚ)) := by
  unfold Agent.calculateIdeaRelevance
  by_cases h : tags = [] ∨ a.profile.interests = []
  · simp [h]
  · have hfin : (tags.dedup.filter (fun t => t ∈ a.profile.interests)).toFinset
        = tags.toFinset ∩ a.profile.interests.toFinset := by
      ext x
      simp [List.mem_filter, List.mem_dedup, List.mem_toFinset, Finset.mem_inter]
    have hnodup : (tags.dedup.filter (fun t => t ∈ a.profile.interests)).Nodup :=
      (List.nodup_dedup tags).filter _
    have hcard : (tags.toFinset ∩ a.profile.interests.toFinset).card
        = (tags.dedup.filter (fun t => t ∈ a.profile.interests)).length := by
      rw [← hfin, List.toFinset_card_of_nodup hnodup]
    have hiff : tags.toFinset ∩ a.profile.interests.toFinset = ∅
        ↔ tags.dedup.filter (fun t => t ∈ a.profile.interests) = [] := by
      rw [← hfin, List.toFinset_eq_empty_iff]
    rw [if_neg h, if_neg h]
    by_cases hov : tags.dedup.filter (fun t => t ∈ a.profile.interests) = []
    · rw [if_pos hov, if_pos (hiff.mpr hov)]
    · rw [if_neg hov, if_neg (fun hemp => hov (hiff.mp hemp)), hcard]
      ring

/-- C8: `create_mutation` fails with the budget-exhausted error exactly
when `mutation_count ≥ mutation_budget` (leaving the parent untouched);
on success it bumps the parent's counter by one and returns a mutant with
the supplied fresh identifier, `generation = parent.generation + 1`,
`parent_id = parent.id`, clamped virality and valence, and inherited tags,
media refs, target, complexity and budget; both results satisfy
`mutation_count ≤ mutation_budget`. -/
theorem create_mutation_spec (i : Idea) (freshId : Nat) (mt : MutationType)
    (newText : String) (dv de : ℚ) :
    (i.mutationBudget ≤ i.mutationCount →
      i.createMutation freshId mt newText dv de = .error .budgetExhausted) ∧
    (i.mutationCount < i.mutationBudget →
      ∃ parent mutant,
        i.createMutation freshId mt newText dv de = .ok (parent, mutant) ∧
        parent = { i with mutationCount := i.mutationCount + 1 } ∧
        mutant.id = freshId ∧
        mutant.generation = i.generation + 1 ∧
        mutant.parentId = some i.id ∧
        mutant.viralityScore = clamp01 (i.viralityScore + dv) ∧
        mutant.emotionalValence = clamp01 (i.emotionalValence + de) ∧
        mutant.tags = i.tags ∧
        mutant.mediaRefs = i.mediaRefs ∧
        mutant.target = i.target ∧
        mutant.complexity = i.complexity ∧
        mutant.mutationBudget = i.mutationBudget ∧
        parent.mutationCount ≤ parent.mutationBudget ∧
        mutant.mutationCount ≤ mutant.mutationBudget) := by
  constructor
  · intro h
    have : ¬i.canMutate := by simpa [Idea.canMutate] using h
    simp [Idea.createMutation, this]
  · intro h
    unfold Idea.createMutation
    rw [if_neg (not_not_intro (show i.canMutate from h))]
    exact ⟨_, _, rfl, rfl, rfl, rfl, rfl, rfl, rfl, rfl, rfl, rfl, rfl, rfl, h, Nat.zero_le _⟩

/-- C8 witness: the spec evaluated on a fresh idea (budget 3, counter 0)
and on an exhausted one (counter = budget = 3). -/
theorem create_mutation_spec_witness :
    (Idea.createMutation { id := 2, mutationCount := 3 } 9 .simplify "t" 0 0
      = .error .budgetExhausted) ∧
    (∃ parent mutant,
        Idea.createMutation { id := 1 } 9 .simplify "t" (1/10) (2/10) = .ok (parent, mutant) ∧
        parent = { ({ id := 1 } : Idea) with mutationCount := (0 : Nat) + 1 } ∧
        mutant.id = 9 ∧
        mutant.generation = (0 : Nat) + 1 ∧
        mutant.parentId = some 1 ∧
        mutant.viralityScore = clamp01 (2/10 + 1/10) ∧
        mutant.emotionalValence = clamp01 (1/2 + 2/10) ∧
        mutant.tags = [] ∧
        mutant.mediaRefs = [] ∧
        mutant.target = ({} : IdeaTarget) ∧
        mutant.complexity = 3/10 ∧
        mutant.mutationBudget = 3 ∧
        parent.mutationCount ≤ parent.mutationBudget ∧
        mutant.mutationCount ≤ mutant.mutationBudget) :=
  ⟨(create_mutation_spec { id := 2, mutationCount := 3 } 9 .simplify "t" 0 0).1 (by decide),
   (create_mutation_spec { id := 1 } 9 .simplify "t" (1/10) (2/10)).2 (by decide)⟩

/-- C5 counterexample: an agent with a non-empty per-idea exposure map
does not survive `to_dict`/`from_dict` — the map is not serialised. -/
theorem agent_roundtrip_counterexample :
    Agent.fromDict (Agent.toDict { id := 1, worldId := 2, ideaExposures := [(7, 3)] })
      ≠ ({ id := 1, worldId := 2, ideaExposures := [(7, 3)] } : Agent) := by
  with_unfolding_all decide

/-- C5 amended: `from_dict ∘ to_dict` is the identity on `Idea`, and on
`Agent` it restores every serialised field (id, world, profile, state,
connections, beliefs) but resets the unserialised `idea_exposures` and
`memory_refs` to empty. -/
theorem serialization_roundtrip (i : Idea) (a : Agent) :
    Idea.fromDict i.toDict = i ∧
    Agent.fromDict a.toDict = { a with ideaExposures := [], memoryRefs := [] } :=
  ⟨rfl, rfl⟩

/-- C2 counterexample: the trigger's MEMEIFY branch leaves the emotional
valence unchanged (`emotional_change` stays 0), not raised by +0.05 as the
table claims: on an idea with valence 0.5 the mutant's valence is 0.5,
not 0.55. -/
theorem trigger_mutation_table_counterexample :
    (((World.triggerMutation { id := 0, ideas := [{ id := 100, text := "hello" }], nextId := 101 }
        { id := 100, text := "hello" } { choices := [.memeify] }).1.ideas.getLast?.map
          Idea.emotionalValence) = some (1/2)) ∧
    (1/2 : ℚ) ≠ clamp01 (1/2 + 5/100) := by
  with_unfolding_all decide

/-- C2 amended: per kind, the built-in trigger produces — SIMPLIFY:
`"[Simplified] " + text[:100] + "..."`, Δv +0.05, Δe 0; EMOTIONALIZE:
`"[Emotional] " + text`, Δv +0.02, Δe +0.10; POLARIZE: `"[Polarized] " +
text`, Δv +0.08, Δe +0.15; MEMEIFY: `"[Meme] " + text[:50] + "... 🔥"`,
Δv +0.10, Δe 0; LOCALIZE and RANDOM both fall into the default branch:
`"[Variant] " + text` with both deltas drawn from `uniform(-0.05, 0.1)`;
the mutant's virality and valence are the parent's plus the delta, clamped
to `[0,1]`. -/
theorem trigger_mutation_table (w : World) (idea : Idea) (mt : MutationType)
    (u1 u2 : ℚ) (r : Rand) (hc : idea.canMutate) :
    ∃ mutant,
      (w.triggerMutation idea
          { r with choices := mt :: r.choices, uniforms := u1 :: u2 :: r.uniforms }).1.ideas.getLast?
        = some mutant ∧
      (w.triggerMutation idea
          { r with choices := mt :: r.choices, uniforms := u1 :: u2 :: r.uniforms }).2.2
        = some mutant.id ∧
      mutant.text = (match mt with
        | .simplify => "[Simplified] " ++ idea.text.take 100 ++ "..."
        | .emotionalize => "[Emotional] " ++ idea.text
        | .polarize => "[Polarized] " ++ idea.text
        | .memeify => "[Meme] " ++ idea.text.take 50 ++ "... 🔥"
        | .localize => "[Variant] " ++ idea.text
        | .rnd => "[Variant] " ++ idea.text) ∧
      mutant.viralityScore = clamp01 (idea.viralityScore + (match mt with
        | .simplify => (5/100 : ℚ)
        | .emotionalize => 2/100
        | .polarize => 8/100
        | .memeify => 1/10
        | .localize => u1
        | .rnd => u1)) ∧
      mutant.emotionalValence = clamp01 (idea.emotionalValence + (match mt with
        | .simplify => (0 : ℚ)
        | .emotionalize => 1/10
        | .polarize => 15/100
        | .memeify => 0
        | .localize => u2
        | .rnd => u2)) := by
  have hni := not_not_intro (show idea.canMutate from hc)
  cases mt <;>
    · unfold World.triggerMutation Idea.createMutation
      rw [if_neg hni]
      simp only [Rand.nextChoice, Rand.nextUniform, World.mutationChanges,
        List.headD, List.tail_cons]
      rw [if_neg hni]
      exact ⟨_, List.getLast?_concat _, rfl, rfl, rfl, rfl⟩

/-- Witness for the amended C2 table at a concrete input: SIMPLIFY on a
fresh idea with text `"hi"` (virality 0.2, valence 0.5, budget 3). -/
theorem trigger_mutation_table_witness :
    Idea.canMutate { id := 100, text := "hi" } ∧
    ∃ mutant,
      (World.triggerMutation { id := 0 } { id := 100, text := "hi" }
          { choices := [.simplify], uniforms := [0, 0] }).1.ideas.getLast? = some mutant ∧
      (World.triggerMutation { id := 0 } { id := 100, text := "hi" }
          { choices := [.simplify], uniforms := [0, 0] }).2.2 = some mutant.id ∧
      mutant.text = "[Simplified] " ++ String.take "hi" 100 ++ "..." ∧
      mutant.viralityScore = clamp01 (2/10 + 5/100) ∧
      mutant.emotionalValence = clamp01 (1/2 + 0) :=
  ⟨by with_unfolding_all decide,
   trigger_mutation_table { id := 0 } { id := 100, text := "hi" } .simplify 0 0 {}
     (by with_unfolding_all decide)⟩

/-- C1 counterexample: beliefs are *not* snapshotted at the start of the
tick.  Agent 1 believes idea 100 and spreads it to agent 2 early in the
tick; when agent 2's (later) turn comes, its belief list is re-read, so it
propagates idea 100 onward to agent 3 within the same tick, although it
did not believe 100 when the tick started. -/
theorem tick_spreads_same_tick_adoption :
    let w : World :=
      { id := 0,
        config := { mutationRate := 0, decayRate := 0 },
        status := .running,
        agents :=
          [{ id := 1, worldId := 0, profile := { interests := ["x"], influence := 1, openness := 1 },
             connections := [2], beliefs := [100] },
           { id := 2, worldId := 0, profile := { interests := ["x"], influence := 1, openness := 1 },
             connections := [1, 3], beliefs := [200] },
           { id := 3, worldId := 0, profile := { interests := ["x"], influence := 1, openness := 1 },
             connections := [2], beliefs := [] }],
        ideas :=
          [{ id := 100, worldId := 0, viralityScore := 1, emotionalValence := 1, complexity := 0 },
           { id := 200, worldId := 0, viralityScore := 0, emotionalValence := 1, complexity := 0 }],
        nextId := 1000 }
    let result := w.runStep [1, 2] { floats := [0, 1, 1, 1, 0, 1] }
    ((w.lookupAgent 2).map Agent.beliefs = some [200]) ∧
    ({ ideaId := 100, fromAgentId := 2, toAgentId := 3, probability := 3/10,
       accepted := true, step := 0 } : SpreadEvent) ∈ result.1.recentEvents := by
  with_unfolding_all decide

/-- C4 counterexample: a rejected spread attempt does not touch the
receiver's susceptibility.  Agent 1 attempts to spread idea 100 to agent 2
(probability 3/10, draw 1 ⟹ rejected): the idea's rejection counter shows
the attempt happened, yet the receiver's susceptibility is still its
initial 0.5 instead of `min(0.9, 0.5·1.02) = 0.51`. -/
theorem rejection_leaves_susceptibility_counterexample :
    let w : World :=
      { id := 0,
        config := { mutationRate := 0, decayRate := 0 },
        status := .running,
        agents :=
          [{ id := 1, worldId := 0, profile := { interests := ["x"], influence := 1, openness := 1 },
             connections := [2], beliefs := [100] },
           { id := 2, worldId := 0, profile := { interests := ["x"], influence := 1, openness := 1 },
             connections := [1], beliefs := [] }],
        ideas :=
          [{ id := 100, worldId := 0, viralityScore := 1, emotionalValence := 1, complexity := 0 }],
        nextId := 1000 }
    let result := w.runStep [1] { floats := [1, 1] }
    ((result.1.lookupIdea 100).map Idea.rejectionCount = some 1) ∧
    ((result.1.lookupAgent 2).map (fun a => a.state.susceptibility) = some (1/2)) ∧
    (1/2 : ℚ) ≠ min (9/10) ((1/2) * (102/100)) := by
  with_unfolding_all decide

/-- C3: `start_world` on a PAUSED world leaves it PAUSED.  `World.start`
only handles the CREATED status and `SimulationManager.start_world` never
calls the `World.resume` transition that exists for exactly this case, so
`start; stop; start` ends PAUSED while a single `start` ends RUNNING —
contradicting both the spec ("if CREATED or PAUSED, sets RUNNING") and the
code's own intent (a loop task is spawned for the still-paused world and
exits immediately). -/
theorem start_world_paused_stays_paused :
    let m : SimulationManager := { worlds := [{ id := 5 }] }
    let afterOne := (m.startWorld 5).1
    let afterSeq := (((m.startWorld 5).1.stopWorld 5).1.startWorld 5).1
    ((afterSeq.lookupWorld 5).map World.status = some .paused) ∧
    ((afterOne.lookupWorld 5).map World.status = some .running) ∧
    WorldStatus.paused ≠ WorldStatus.running := by
  with_unfolding_all decide

/-- `find?` over an id-keyed map commutes with an id-preserving pointwise
update. -/
theorem find?_id_map (l : List Agent) (i j : Nat) (f : Agent → Agent)
    (hf : ∀ a, (f a).id = a.id) :
    (l.map (fun a => if a.id = i then f a else a)).find? (fun a => a.id = j)
      = (l.find? (fun a => a.id = j)).map (fun a => if a.id = i then f a else a) := by
  induction l with
  | nil => rfl
  | cons a l ih =>
    have hid : (if a.id = i then f a else a).id = a.id := by split <;> simp [hf]
    by_cases hj : a.id = j
    · rw [List.map_cons, List.find?_cons_of_pos, List.find?_cons_of_pos]
      · simp
      · simpa using hj
      · simpa [hid] using hj
    · rw [List.map_cons, List.find?_cons_of_neg, List.find?_cons_of_neg, ih]
      · simpa using hj
      · simpa [hid] using hj

/-- Looking an agent up after an in-place id-preserving update. -/
theorem lookupAgent_updateAgent (w : World) (i j : Nat) (f : Agent → Agent)
    (hf : ∀ a, (f a).id = a.id) :
    (w.updateAgent i f).lookupAgent j
      = (w.lookupAgent j).map (fun a => if a.id = i then f a else a) := by
  unfold World.lookupAgent World.updateAgent
  exact find?_id_map w.agents i j f hf

/-- A successful agent lookup returns an agent with the looked-up id. -/
theorem lookupAgent_id (w : World) (j : Nat) (a : Agent)
    (h : w.lookupAgent j = some a) : a.id = j := by
  have := List.find?_some h
  simpa using this

theorem agents_updateIdea (w : World) (i : Nat) (f : Idea → Idea) :
    (w.updateIdea i f).agents = w.agents := rfl

theorem agents_recordEvent (w : World) (e : SpreadEvent) :
    (w.recordEvent e).agents = w.agents := rfl

theorem agents_triggerMutation (w : World) (idea : Idea) (r : Rand) :
    (w.triggerMutation idea r).1.agents = w.agents := by
  unfold World.triggerMutation
  split
  · rfl
  · split
    split
    split <;> rfl

theorem agents_afterMutationAttempt (t : World × Rand × Option Nat) (acc : StepAcc) :
    ((World.afterMutationAttempt t acc).1).agents = t.1.agents := by
  rcases t with ⟨w, r, mid⟩
  cases mid <;> rfl

theorem exposeToIdea_id (a : Agent) (i : Nat) : ((a.exposeToIdea i).1).id = a.id := rfl

theorem adoptIdea_id (a : Agent) (i : Nat) : ((a.adoptIdea i).1).id = a.id := by
  unfold Agent.adoptIdea
  split <;> rfl

theorem forgetIdea_id (a : Agent) (i : Nat) : ((a.forgetIdea i).1).id = a.id := by
  unfold Agent.forgetIdea
  split <;> rfl

theorem lookupAgent_ext (w1 w2 : World) (h : w1.agents = w2.agents) (j : Nat) :
    w1.lookupAgent j = w2.lookupAgent j := by
  unfold World.lookupAgent
  rw [h]

/-- The two possible agent-map outcomes of one spread attempt towards a
receiver that does not yet hold the idea: on acceptance the receiver is
exposed then adopts; on rejection it is only exposed. -/
theorem spreadStep_agents (w : World) (sid : Nat) (infl : ℚ) (iid cid : Nat)
    (r : Rand) (acc : StepAcc) (receiver : Agent) (idea : Idea)
    (hrecv : w.lookupAgent cid = some receiver)
    (hidea : w.lookupIdea iid = some idea)
    (hnew : iid ∉ receiver.beliefs) :
    (w.spreadStep sid infl iid cid r acc).1.agents =
      if r.nextFloat.1 < idea.calculateSpreadProbability infl receiver.profile.openness
          (receiver.calculateIdeaRelevance idea.tags) then
        (((w.updateIdea iid Idea.recordExposure).updateAgent cid
            (fun a => (a.exposeToIdea iid).1)).updateAgent cid
            (fun a => (a.adoptIdea iid).1)).agents
      else
        ((w.updateIdea iid Idea.recordExposure).updateAgent cid
            (fun a => (a.exposeToIdea iid).1)).agents := by
  unfold World.spreadStep
  rw [hrecv, hidea]
  rcases hnf : r.nextFloat with ⟨u, r1⟩
  dsimp only
  rw [if_neg (by simp [Agent.hasIdea, hnew])]
  by_cases hu : u < idea.calculateSpreadProbability infl
      receiver.profile.openness (receiver.calculateIdeaRelevance idea.tags)
  · rw [if_pos hu, if_pos hu]
    split
    · split
      · split
        · rw [agents_afterMutationAttempt, agents_triggerMutation]
          rfl
        · rfl
      · rfl
    · rfl
  · rw [if_neg hu, if_neg hu]
    rfl

/-- C4 amended: during a tick, adopting an idea the receiver does not yet
believe multiplies its susceptibility by 0.95 with floor 0.1; a *rejected*
spread attempt leaves the receiver's susceptibility unchanged — the
raise-by-1.02-with-ceiling-0.9 branch exists in
`AgentState.update_susceptibility(adopted=False)` (third conjunct) but the
tick never invokes it. -/
theorem susceptibility_update_on_attempt (w : World) (sid : Nat) (infl : ℚ)
    (iid cid : Nat) (r : Rand) (acc : StepAcc) (receiver : Agent) (idea : Idea)
    (hrecv : w.lookupAgent cid = some receiver)
    (hidea : w.lookupIdea iid = some idea)
    (hnew : iid ∉ receiver.beliefs) :
    ∃ receiver',
      (w.spreadStep sid infl iid cid r acc).1.lookupAgent cid = some receiver' ∧
      receiver'.state.susceptibility =
        (if r.nextFloat.1 < idea.calculateSpreadProbability infl receiver.profile.openness
            (receiver.calculateIdeaRelevance idea.tags)
         then max (1/10) (receiver.state.susceptibility * (95/100))
         else receiver.state.susceptibility) ∧
      (receiver.state.updateSusceptibility false).susceptibility
        = min (9/10) (receiver.state.susceptibility * (102/100)) := by
  have hag := spreadStep_agents w sid infl iid cid r acc receiver idea hrecv hidea hnew
  have hrid : receiver.id = cid := lookupAgent_id w cid receiver hrecv
  have hexp_id : ∀ a : Agent, ((a.exposeToIdea iid).1).id = a.id := fun a => rfl
  have hadopt_id : ∀ a : Agent, ((a.adoptIdea iid).1).id = a.id := fun a => adoptIdea_id a iid
  have h1 : (w.updateIdea iid Idea.recordExposure).lookupAgent cid = some receiver :=
    (lookupAgent_ext _ w (agents_updateIdea w iid _) cid).trans hrecv
  have h2 : ((w.updateIdea iid Idea.recordExposure).updateAgent cid
        (fun a => (a.exposeToIdea iid).1)).lookupAgent cid
      = some ((receiver.exposeToIdea iid).1) := by
    rw [lookupAgent_updateAgent _ cid cid _ hexp_id, h1]
    simp [hrid]
  by_cases hu : r.nextFloat.1 < idea.calculateSpreadProbability infl
      receiver.profile.openness (receiver.calculateIdeaRelevance idea.tags)
  · rw [if_pos hu] at hag
    refine ⟨(((receiver.exposeToIdea iid).1).adoptIdea iid).1, ?_, ?_, ?_⟩
    · have hl : (w.spreadStep sid infl iid cid r acc).1.lookupAgent cid
          = (((w.updateIdea iid Idea.recordExposure).updateAgent cid
              (fun a => (a.exposeToIdea iid).1)).updateAgent cid
              (fun a => (a.adoptIdea iid).1)).lookupAgent cid := by
        unfold World.lookupAgent
        rw [hag]
      rw [hl, lookupAgent_updateAgent _ cid cid _ hadopt_id, h2]
      simp [Agent.exposeToIdea, hrid]
    · rw [if_pos hu]
      simp [Agent.adoptIdea, Agent.exposeToIdea, AgentState.updateSusceptibility, hnew]
    · simp [AgentState.updateSusceptibility]
  · rw [if_neg hu] at hag
    refine ⟨(receiver.exposeToIdea iid).1, ?_, ?_, ?_⟩
    · have hl : (w.spreadStep sid infl iid cid r acc).1.lookupAgent cid
          = ((w.updateIdea iid Idea.recordExposure).updateAgent cid
              (fun a => (a.exposeToIdea iid).1)).lookupAgent cid := by
        unfold World.lookupAgent
        rw [hag]
      rw [hl, h2]
    · rw [if_neg hu]
      simp [Agent.exposeToIdea]
    · simp [AgentState.updateSusceptibility]

/-- C4 amended, witnessed on a concrete world: agent 1 attempts to spread
idea 100 to agent 2. -/
theorem susceptibility_update_on_attempt_witness :
    (100 ∉ ({ id := 2, worldId := 0, connections := [1] } : Agent).beliefs) ∧
    ∃ receiver',
      (World.spreadStep
          { id := 0, status := .running,
            agents := [{ id := 1, worldId := 0, connections := [2], beliefs := [100] },
                       { id := 2, worldId := 0, connections := [1] }],
            ideas := [{ id := 100, worldId := 0 }] }
          1 1 100 2 { floats := [1] } {}).1.lookupAgent 2 = some receiver' ∧
      receiver'.state.susceptibility =
        (if (({ floats := [1] } : Rand).nextFloat.1 <
            Idea.calculateSpreadProbability { id := 100, worldId := 0 } 1
              ({ id := 2, worldId := 0, connections := [1] } : Agent).profile.openness
              (({ id := 2, worldId := 0, connections := [1] } : Agent).calculateIdeaRelevance
                ({ id := 100, worldId := 0 } : Idea).tags))
         then max (1/10) (({ id := 2, worldId := 0, connections := [1] } : Agent).state.susceptibility * (95/100))
         else ({ id := 2, worldId := 0, connections := [1] } : Agent).state.susceptibility) ∧
      (({ id := 2, worldId := 0, connections := [1] } : Agent).state.updateSusceptibility false).susceptibility
        = min (9/10) (({ id := 2, worldId := 0, connections := [1] } : Agent).state.susceptibility * (102/100)) :=
  ⟨by decide,
   susceptibility_update_on_attempt
     { id := 0, status := .running,
       agents := [{ id := 1, worldId := 0, connections := [2], beliefs := [100] },
                  { id := 2, worldId := 0, connections := [1] }],
       ideas := [{ id := 100, worldId := 0 }] }
     1 1 100 2 { floats := [1] } {} { id := 2, worldId := 0, connections := [1] }
     { id := 100, worldId := 0 } rfl rfl (by decide)⟩

theorem mem_recentEvents_recordEvent (w : World) (ev e : SpreadEvent)
    (h : e ∈ (w.recordEvent ev).recentEvents) : e ∈ w.recentEvents ∨ e = ev := by
  unfold World.recordEvent at h
  dsimp only at h
  have happ : e ∈ w.recentEvents ++ [ev] := by
    split at h
    · exact List.mem_of_mem_drop h
    · exact h
  rcases List.mem_append.mp happ with h' | h'
  · exact .inl h'
  · exact .inr (List.mem_singleton.mp h')

theorem recentEvents_triggerMutation (w : World) (idea : Idea) (r : Rand) :
    (w.triggerMutation idea r).1.recentEvents = w.recentEvents := by
  unfold World.triggerMutation
  split
  · rfl
  · split
    split
    split <;> rfl

theorem recentEvents_afterMutationAttempt (t : World × Rand × Option Nat) (acc : StepAcc) :
    ((World.afterMutationAttempt t acc).1).recentEvents = t.1.recentEvents := by
  rcases t with ⟨w, r, mid⟩
  cases mid <;> rfl

/-- Every event appended by one spread attempt names the current spreader
as its sender. -/
theorem spreadStep_events (w : World) (sid : Nat) (infl : ℚ) (iid cid : Nat)
    (r : Rand) (acc : StepAcc) (e : SpreadEvent)
    (h : e ∈ (w.spreadStep sid infl iid cid r acc).1.recentEvents) :
    e ∈ w.recentEvents ∨ e.fromAgentId = sid := by
  unfold World.spreadStep at h
  split at h
  case h_2 => exact .inl h
  case h_1 receiver idea hr hi =>
    split at h
    · exact .inl h
    · dsimp only at h
      split at h
      · -- accepted
        split at h
        · split at h
          · split at h
            · rw [recentEvents_afterMutationAttempt, recentEvents_triggerMutation] at h
              rcases mem_recentEvents_recordEvent _ _ _ h with h' | h'
              · exact .inl h'
              · exact .inr (by rw [h'])
            · rcases mem_recentEvents_recordEvent _ _ _ h with h' | h'
              · exact .inl h'
              · exact .inr (by rw [h'])
          · rcases mem_recentEvents_recordEvent _ _ _ h with h' | h'
            · exact .inl h'
            · exact .inr (by rw [h'])
        · rcases mem_recentEvents_recordEvent _ _ _ h with h' | h'
          · exact .inl h'
          · exact .inr (by rw [h'])
      · -- rejected: only counters change
        exact .inl h

theorem spreadConnections_events (w : World) (sid : Nat) (infl : ℚ) (iid : Nat)
    (conns : List Nat) (r : Rand) (acc : StepAcc) (e : SpreadEvent)
    (h : e ∈ ((World.spreadConnections w sid infl iid conns r acc).1).recentEvents) :
    e ∈ w.recentEvents ∨ e.fromAgentId = sid := by
  induction conns generalizing w r acc with
  | nil => exact .inl h
  | cons c cs ih =>
    unfold World.spreadConnections at h
    rcases hss : w.spreadStep sid infl iid c r acc with ⟨w1, r1, acc1⟩
    rw [hss] at h
    dsimp only at h
    rcases ih w1 r1 acc1 h with h' | h'
    · have := spreadStep_events w sid infl iid c r acc e (by rw [hss]; exact h')
      exact this
    · exact .inr h'

theorem spreadBeliefs_events (w : World) (sid : Nat) (infl : ℚ)
    (conns : List Nat) (bs : List Nat) (r : Rand) (acc : StepAcc) (e : SpreadEvent)
    (h : e ∈ ((World.spreadBeliefs w sid infl conns bs r acc).1).recentEvents) :
    e ∈ w.recentEvents ∨ e.fromAgentId = sid := by
  induction bs generalizing w r acc with
  | nil => exact .inl h
  | cons b bs ih =>
    unfold World.spreadBeliefs at h
    split at h
    · exact ih w r acc h
    · rcases hsc : World.spreadConnections w sid infl b conns r acc with ⟨w1, r1, acc1⟩
      rw [hsc] at h
      dsimp only at h
      rcases ih w1 r1 acc1 h with h' | h'
      · exact spreadConnections_events w sid infl b conns r acc e (by rw [hsc]; exact h')
      · exact .inr h'

theorem spreadFromAgent_events (w : World) (sid : Nat) (r : Rand) (acc : StepAcc)
    (e : SpreadEvent)
    (h : e ∈ ((w.spreadFromAgent sid r acc).1).recentEvents) :
    e ∈ w.recentEvents ∨ e.fromAgentId = sid := by
  unfold World.spreadFromAgent at h
  split at h
  · exact .inl h
  · exact spreadBeliefs_events _ _ _ _ _ _ _ _ h

theorem runSpreaders_events (w : World) (order : List Nat) (r : Rand) (acc : StepAcc)
    (e : SpreadEvent)
    (h : e ∈ ((w.runSpreaders order r acc).1).recentEvents) :
    e ∈ w.recentEvents ∨ ∃ sid ∈ order, e.fromAgentId = sid := by
  induction order generalizing w r acc with
  | nil => exact .inl h
  | cons sid rest ih =>
    unfold World.runSpreaders at h
    rcases hsf : w.spreadFromAgent sid r acc with ⟨w1, r1, acc1⟩
    rw [hsf] at h
    dsimp only at h
    rcases ih w1 r1 acc1 h with h' | ⟨sid', hmem, hfrom⟩
    · rcases spreadFromAgent_events w sid r acc e (by rw [hsf]; exact h') with h'' | h''
      · exact .inl h''
      · exact .inr ⟨sid, List.mem_cons_self sid rest, h''⟩
    · exact .inr ⟨sid', List.mem_cons_of_mem sid hmem, hfrom⟩

theorem recentEvents_decayBeliefs (w : World) (aid : Nat) (bs : List Nat)
    (r : Rand) (acc : StepAcc) :
    ((World.decayBeliefs w aid bs r acc).1).recentEvents = w.recentEvents := by
  induction bs generalizing w r acc with
  | nil => rfl
  | cons b bs ih =>
    unfold World.decayBeliefs
    dsimp only
    split
    · rw [ih]
      rfl
    · rw [ih]

theorem recentEvents_decayAgents (w : World) (aids : List Nat) (r : Rand) (acc : StepAcc) :
    ((World.decayAgents w aids r acc).1).recentEvents = w.recentEvents := by
  induction aids generalizing w r acc with
  | nil => rfl
  | cons aid rest ih =>
    unfold World.decayAgents
    dsimp only
    rw [ih]
    exact recentEvents_decayBeliefs _ _ _ _ _

/-- C1 amended: the spreader *set* is fixed when the tick starts — every
spread event of the tick names a sender that already had a non-empty
belief set at the start of the tick (agents activated mid-tick never
spread).  The per-spreader belief list, however, is read at the
spreader's own turn, not snapshotted at tick start (see the
counterexample), so ideas adopted earlier in the same tick can be passed
on within it. -/
theorem tick_spreaders_fixed_at_start (w : World) (order : List Nat) (r : Rand)
    (horder : ∀ sid ∈ order, ∃ a, a ∈ w.agents ∧ a.id = sid ∧ a.beliefs ≠ []) :
    ∀ e ∈ (w.runStep order r).1.recentEvents,
      e ∈ w.recentEvents ∨ ∃ a, a ∈ w.agents ∧ a.id = e.fromAgentId ∧ a.beliefs ≠ [] := by
  intro e he
  unfold World.runStep at he
  split at he
  · exact .inl he
  · rcases hrs : w.runSpreaders order r {} with ⟨w1, r1, acc1⟩
    rw [hrs] at he
    dsimp only at he
    rcases hda : World.decayAgents w1 (w1.agents.map fun a => a.id) r1 acc1 with ⟨w2, r2, acc2⟩
    rw [hda] at he
    dsimp only at he
    have hev : e ∈ w2.recentEvents := by
      split at he
      · split at he <;> exact he
      · exact he
    have hev1 : e ∈ w1.recentEvents := by
      have := recentEvents_decayAgents w1 (w1.agents.map fun a => a.id) r1 acc1
      rw [hda] at this
      rwa [← this]
    have := runSpreaders_events w order r {} e (by rw [hrs]; exact hev1)
    rcases this with h' | ⟨sid, hmem, hfrom⟩
    · exact .inl h'
    · rcases horder sid hmem with ⟨a, hma, hid, hbel⟩
      exact .inr ⟨a, hma, by rw [hid, hfrom], hbel⟩

/-- C1 amended, witnessed: in the counterexample world every sender of a
recorded event had beliefs at tick start. -/
theorem tick_spreaders_fixed_at_start_witness :
    let w : World :=
      { id := 0,
        config := { mutationRate := 0, decayRate := 0 },
        status := .running,
        agents :=
          [{ id := 1, worldId := 0, profile := { interests := ["x"], influence := 1, openness := 1 },
             connections := [2], beliefs := [100] },
           { id := 2, worldId := 0, profile := { interests := ["x"], influence := 1, openness := 1 },
             connections := [1, 3], beliefs := [200] },
           { id := 3, worldId := 0, profile := { interests := ["x"], influence := 1, openness := 1 },
             connections := [2], beliefs := [] }],
        ideas :=
          [{ id := 100, worldId := 0, viralityScore := 1, emotionalValence := 1, complexity := 0 },
           { id := 200, worldId := 0, viralityScore := 0, emotionalValence := 1, complexity := 0 }],
        nextId := 1000 }
    (∀ sid ∈ [1, 2], ∃ a, a ∈ w.agents ∧ a.id = sid ∧ a.beliefs ≠ []) ∧
    (∀ e ∈ (w.runStep [1, 2] { floats := [0, 1, 1, 1, 0, 1] }).1.recentEvents,
      e ∈ w.recentEvents ∨ ∃ a, a ∈ w.agents ∧ a.id = e.fromAgentId ∧ a.beliefs ≠ []) :=
  ⟨by with_unfolding_all decide,
   tick_spreaders_fixed_at_start _ [1, 2] { floats := [0, 1, 1, 1, 0, 1] }
     (by with_unfolding_all decide)⟩

theorem status_triggerMutation (w : World) (idea : Idea) (r : Rand) :
    (w.triggerMutation idea r).1.status = w.status := by
  unfold World.triggerMutation
  split
  · rfl
  · split
    split
    split <;> rfl

theorem config_triggerMutation (w : World) (idea : Idea) (r : Rand) :
    (w.triggerMutation idea r).1.config = w.config := by
  unfold World.triggerMutation
  split
  · rfl
  · split
    split
    split <;> rfl

theorem currentStep_triggerMutation (w : World) (idea : Idea) (r : Rand) :
    (w.triggerMutation idea r).1.currentStep = w.currentStep := by
  unfold World.triggerMutation
  split
  · rfl
  · split
    split
    split <;> rfl

theorem id_triggerMutation (w : World) (idea : Idea) (r : Rand) :
    (w.triggerMutation idea r).1.id = w.id := by
  unfold World.triggerMutation
  split
  · rfl
  · split
    split
    split <;> rfl

theorem networkEdges_triggerMutation (w : World) (idea : Idea) (r : Rand) :
    (w.triggerMutation idea r).1.networkEdges = w.networkEdges := by
  unfold World.triggerMutation
  split
  · rfl
  · split
    split
    split <;> rfl

theorem agentKeys_triggerMutation (w : World) (idea : Idea) (r : Rand) :
    (w.triggerMutation idea r).1.agentKeys = w.agentKeys := by
  unfold World.triggerMutation
  split
  · rfl
  · split
    split
    split <;> rfl

theorem status_afterMutationAttempt (t : World × Rand × Option Nat) (acc : StepAcc) :
    ((World.afterMutationAttempt t acc).1).status = t.1.status := by
  rcases t with ⟨w, r, mid⟩
  cases mid <;> rfl

theorem config_afterMutationAttempt (t : World × Rand × Option Nat) (acc : StepAcc) :
    ((World.afterMutationAttempt t acc).1).config = t.1.config := by
  rcases t with ⟨w, r, mid⟩
  cases mid <;> rfl

theorem currentStep_afterMutationAttempt (t : World × Rand × Option Nat) (acc : StepAcc) :
    ((World.afterMutationAttempt t acc).1).currentStep = t.1.currentStep := by
  rcases t with ⟨w, r, mid⟩
  cases mid <;> rfl

theorem id_afterMutationAttempt (t : World × Rand × Option Nat) (acc : StepAcc) :
    ((World.afterMutationAttempt t acc).1).id = t.1.id := by
  rcases t with ⟨w, r, mid⟩
  cases mid <;> rfl

theorem networkEdges_afterMutationAttempt (t : World × Rand × Option Nat) (acc : StepAcc) :
    ((World.afterMutationAttempt t acc).1).networkEdges = t.1.networkEdges := by
  rcases t with ⟨w, r, mid⟩
  cases mid <;> rfl

theorem agentKeys_afterMutationAttempt (t : World × Rand × Option Nat) (acc : StepAcc) :
    ((World.afterMutationAttempt t acc).1).agentKeys = t.1.agentKeys := by
  rcases t with ⟨w, r, mid⟩
  cases mid <;> rfl

/-- An id-and-connection-preserving pointwise update leaves the graph view
of the agent map unchanged. -/
theorem agentKeys_updateAgent (w : World) (i : Nat) (f : Agent → Agent)
    (hf : ∀ a : Agent, (f a).id = a.id ∧ (f a).connections = a.connections) :
    (w.updateAgent i f).agentKeys = w.agentKeys := by
  unfold World.agentKeys World.updateAgent
  dsimp only
  rw [List.map_map]
  refine List.map_congr_left (fun a _ => ?_)
  by_cases h : a.id = i <;> simp [Function.comp, h, (hf a).1, (hf a).2]

theorem agentKeys_updateAgent_expose (w : World) (i iid : Nat) :
    (w.updateAgent i (fun a => (a.exposeToIdea iid).1)).agentKeys = w.agentKeys :=
  agentKeys_updateAgent w i _ (fun _ => ⟨rfl, rfl⟩)

theorem agentKeys_updateAgent_adopt (w : World) (i iid : Nat) :
    (w.updateAgent i (fun a => (a.adoptIdea iid).1)).agentKeys = w.agentKeys :=
  agentKeys_updateAgent w i _ (fun a => by unfold Agent.adoptIdea; split <;> exact ⟨rfl, rfl⟩)

theorem agentKeys_updateAgent_forget (w : World) (i iid : Nat) :
    (w.updateAgent i (fun a => (a.forgetIdea iid).1)).agentKeys = w.agentKeys :=
  agentKeys_updateAgent w i _ (fun a => by unfold Agent.forgetIdea; split <;> exact ⟨rfl, rfl⟩)

set_option maxHeartbeats 3200000 in
/-- One spread attempt never changes the world's status, config, step
counter, identity, graph, or any agent's id/connection set. -/
theorem spreadStep_frame (w : World) (sid : Nat) (infl : ℚ) (iid cid : Nat)
    (r : Rand) (acc : StepAcc) :
    ((w.spreadStep sid infl iid cid r acc).1.status = w.status)
  ∧ ((w.spreadStep sid infl iid cid r acc).1.config = w.config)
  ∧ ((w.spreadStep sid infl iid cid r acc).1.currentStep = w.currentStep)
  ∧ ((w.spreadStep sid infl iid cid r acc).1.id = w.id)
  ∧ ((w.spreadStep sid infl iid cid r acc).1.networkEdges = w.networkEdges)
  ∧ ((w.spreadStep sid infl iid cid r acc).1.agentKeys = w.agentKeys) := by
  have hkeys : ∀ l : List Agent,
      ((l.map (fun a => if a.id = cid then (a.exposeToIdea iid).1 else a)).map
          (fun a => if a.id = cid then (a.adoptIdea iid).1 else a)).map
        (fun a => (a.id, a.connections))
      = l.map (fun a => (a.id, a.connections)) := by
    intro l
    rw [List.map_map, List.map_map]
    refine List.map_congr_left fun a _ => ?_
    have e1 : ((a.exposeToIdea iid).1).id = a.id := rfl
    have e2 : ((a.exposeToIdea iid).1).connections = a.connections := rfl
    have h2 : ∀ b : Agent, ((b.adoptIdea iid).1).id = b.id ∧
        ((b.adoptIdea iid).1).connections = b.connections := fun b => by
      unfold Agent.adoptIdea
      split <;> exact ⟨rfl, rfl⟩
    by_cases h : a.id = cid
    · simp only [Function.comp_apply]
      rw [if_pos h, e1, if_pos h, (h2 _).1, (h2 _).2, e1, e2]
    · simp only [Function.comp_apply]
      rw [if_neg h, if_neg h]
  have hkexpose : ∀ l : List Agent,
      (l.map (fun a => if a.id = cid then (a.exposeToIdea iid).1 else a)).map
        (fun a => (a.id, a.connections))
      = l.map (fun a => (a.id, a.connections)) := by
    intro l
    rw [List.map_map]
    refine List.map_congr_left fun a _ => ?_
    by_cases h : a.id = cid
    · simp only [Function.comp_apply]
      rw [if_pos h]
      rfl
    · simp only [Function.comp_apply]
      rw [if_neg h]
  unfold World.spreadStep
  split
  case h_2 => exact ⟨rfl, rfl, rfl, rfl, rfl, rfl⟩
  case h_1 receiver idea hr hi =>
    split
    · exact ⟨rfl, rfl, rfl, rfl, rfl, rfl⟩
    · rcases hnf : r.nextFloat with ⟨u, r1⟩
      rcases hnf2 : r1.nextFloat with ⟨u2, r2⟩
      dsimp only
      split
      · split
        · split
          · split
            · refine ⟨?_, ?_, ?_, ?_, ?_, ?_⟩
              · rw [status_afterMutationAttempt, status_triggerMutation]
                rfl
              · rw [config_afterMutationAttempt, config_triggerMutation]
                rfl
              · rw [currentStep_afterMutationAttempt, currentStep_triggerMutation]
                rfl
              · rw [id_afterMutationAttempt, id_triggerMutation]
                rfl
              · rw [networkEdges_afterMutationAttempt, networkEdges_triggerMutation]
                rfl
              · rw [agentKeys_afterMutationAttempt, agentKeys_triggerMutation]
                unfold World.agentKeys
                dsimp only [World.recordEvent, World.updateIdea, World.updateAgent]
                exact hkeys w.agents
            · refine ⟨?_, ?_, ?_, ?_, ?_, ?_⟩
              · rfl
              · rfl
              · rfl
              · rfl
              · rfl
              · unfold World.agentKeys
                dsimp only [World.recordEvent, World.updateIdea, World.updateAgent]
                exact hkeys w.agents
          · refine ⟨?_, ?_, ?_, ?_, ?_, ?_⟩
            · rfl
            · rfl
            · rfl
            · rfl
            · rfl
            · unfold World.agentKeys
              dsimp only [World.recordEvent, World.updateIdea, World.updateAgent]
              exact hkeys w.agents
        · refine ⟨?_, ?_, ?_, ?_, ?_, ?_⟩
          · rfl
          · rfl
          · rfl
          · rfl
          · rfl
          · unfold World.agentKeys
            dsimp only [World.recordEvent, World.updateIdea, World.updateAgent]
            exact hkeys w.agents
      · refine ⟨?_, ?_, ?_, ?_, ?_, ?_⟩
        · rfl
        · rfl
        · rfl
        · rfl
        · rfl
        · unfold World.agentKeys
          dsimp only [World.updateIdea, World.updateAgent]
          exact hkexpose w.agents

theorem spreadConnections_frame (sid : Nat) (infl : ℚ) (iid : Nat)
    (conns : List Nat) : ∀ (w : World) (r : Rand) (acc : StepAcc),
    ((World.spreadConnections w sid infl iid conns r acc).1.status = w.status)
  ∧ ((World.spreadConnections w sid infl iid conns r acc).1.config = w.config)
  ∧ ((World.spreadConnections w sid infl iid conns r acc).1.currentStep = w.currentStep)
  ∧ ((World.spreadConnections w sid infl iid conns r acc).1.id = w.id)
  ∧ ((World.spreadConnections w sid infl iid conns r acc).1.networkEdges = w.networkEdges)
  ∧ ((World.spreadConnections w sid infl iid conns r acc).1.agentKeys = w.agentKeys) := by
  induction conns with
  | nil => exact fun w r acc => ⟨rfl, rfl, rfl, rfl, rfl, rfl⟩
  | cons c cs ih =>
    intro w r acc
    unfold World.spreadConnections
    rcases hss : w.spreadStep sid infl iid c r acc with ⟨w1, r1, acc1⟩
    dsimp only
    have hstep := spreadStep_frame w sid infl iid c r acc
    rw [hss] at hstep
    obtain ⟨s1, c1, st1, i1, n1, k1⟩ := hstep
    obtain ⟨s2, c2, st2, i2, n2, k2⟩ := ih w1 r1 acc1
    exact ⟨s2.trans s1, c2.trans c1, st2.trans st1, i2.trans i1, n2.trans n1, k2.trans k1⟩

theorem spreadBeliefs_frame (sid : Nat) (infl : ℚ) (conns : List Nat)
    (bs : List Nat) : ∀ (w : World) (r : Rand) (acc : StepAcc),
    ((World.spreadBeliefs w sid infl conns bs r acc).1.status = w.status)
  ∧ ((World.spreadBeliefs w sid infl conns bs r acc).1.config = w.config)
  ∧ ((World.spreadBeliefs w sid infl conns bs r acc).1.currentStep = w.currentStep)
  ∧ ((World.spreadBeliefs w sid infl conns bs r acc).1.id = w.id)
  ∧ ((World.spreadBeliefs w sid infl conns bs r acc).1.networkEdges = w.networkEdges)
  ∧ ((World.spreadBeliefs w sid infl conns bs r acc).1.agentKeys = w.agentKeys) := by
  induction bs with
  | nil => exact fun w r acc => ⟨rfl, rfl, rfl, rfl, rfl, rfl⟩
  | cons b rest ih =>
    intro w r acc
    unfold World.spreadBeliefs
    split
    · exact ih w r acc
    · rcases hsc : World.spreadConnections w sid infl b conns r acc with ⟨w1, r1, acc1⟩
      dsimp only
      have hstep := spreadConnections_frame sid infl b conns w r acc
      rw [hsc] at hstep
      obtain ⟨s1, c1, st1, i1, n1, k1⟩ := hstep
      obtain ⟨s2, c2, st2, i2, n2, k2⟩ := ih w1 r1 acc1
      exact ⟨s2.trans s1, c2.trans c1, st2.trans st1, i2.trans i1, n2.trans n1, k2.trans k1⟩

theorem spreadFromAgent_frame (w : World) (sid : Nat) (r : Rand) (acc : StepAcc) :
    ((w.spreadFromAgent sid r acc).1.status = w.status)
  ∧ ((w.spreadFromAgent sid r acc).1.config = w.config)
  ∧ ((w.spreadFromAgent sid r acc).1.currentStep = w.currentStep)
  ∧ ((w.spreadFromAgent sid r acc).1.id = w.id)
  ∧ ((w.spreadFromAgent sid r acc).1.networkEdges = w.networkEdges)
  ∧ ((w.spreadFromAgent sid r acc).1.agentKeys = w.agentKeys) := by
  unfold World.spreadFromAgent
  split
  · exact ⟨rfl, rfl, rfl, rfl, rfl, rfl⟩
  · exact spreadBeliefs_frame _ _ _ _ _ _ _

theorem runSpreaders_frame (order : List Nat) : ∀ (w : World) (r : Rand) (acc : StepAcc),
    ((w.runSpreaders order r acc).1.status = w.status)
  ∧ ((w.runSpreaders order r acc).1.config = w.config)
  ∧ ((w.runSpreaders order r acc).1.currentStep = w.currentStep)
  ∧ ((w.runSpreaders order r acc).1.id = w.id)
  ∧ ((w.runSpreaders order r acc).1.networkEdges = w.networkEdges)
  ∧ ((w.runSpreaders order r acc).1.agentKeys = w.agentKeys) := by
  induction order with
  | nil => exact fun w r acc => ⟨rfl, rfl, rfl, rfl, rfl, rfl⟩
  | cons sid rest ih =>
    intro w r acc
    unfold World.runSpreaders
    rcases hsf : w.spreadFromAgent sid r acc with ⟨w1, r1, acc1⟩
    dsimp only
    have hstep := spreadFromAgent_frame w sid r acc
    rw [hsf] at hstep
    obtain ⟨s1, c1, st1, i1, n1, k1⟩ := hstep
    obtain ⟨s2, c2, st2, i2, n2, k2⟩ := ih w1 r1 acc1
    exact ⟨s2.trans s1, c2.trans c1, st2.trans st1, i2.trans i1, n2.trans n1, k2.trans k1⟩

theorem decayBeliefs_frame (aid : Nat) (bs : List Nat) : ∀ (w : World) (r : Rand) (acc : StepAcc),
    ((World.decayBeliefs w aid bs r acc).1.status = w.status)
  ∧ ((World.decayBeliefs w aid bs r acc).1.config = w.config)
  ∧ ((World.decayBeliefs w aid bs r acc).1.currentStep = w.currentStep)
  ∧ ((World.decayBeliefs w aid bs r acc).1.id = w.id)
  ∧ ((World.decayBeliefs w aid bs r acc).1.networkEdges = w.networkEdges)
  ∧ ((World.decayBeliefs w aid bs r acc).1.agentKeys = w.agentKeys) := by
  induction bs with
  | nil => exact fun w r acc => ⟨rfl, rfl, rfl, rfl, rfl, rfl⟩
  | cons b rest ih =>
    intro w r acc
    unfold World.decayBeliefs
    rcases hnf : r.nextFloat with ⟨u, r1⟩
    dsimp only
    split
    · obtain ⟨s2, c2, st2, i2, n2, k2⟩ :=
        ih (w.updateAgent aid (fun a => (a.forgetIdea b).1)) r1
          (if ((w.lookupAgent aid).map (fun a => (a.forgetIdea b).2)).getD false then
            { acc with decays := acc.decays + 1 } else acc)
      exact ⟨s2, c2, st2, i2, n2, k2.trans (agentKeys_updateAgent_forget w aid b)⟩
    · exact ih w r1 acc

theorem decayAgents_frame (aids : List Nat) : ∀ (w : World) (r : Rand) (acc : StepAcc),
    ((World.decayAgents w aids r acc).1.status = w.status)
  ∧ ((World.decayAgents w aids r acc).1.config = w.config)
  ∧ ((World.decayAgents w aids r acc).1.currentStep = w.currentStep)
  ∧ ((World.decayAgents w aids r acc).1.id = w.id)
  ∧ ((World.decayAgents w aids r acc).1.networkEdges = w.networkEdges)
  ∧ ((World.decayAgents w aids r acc).1.agentKeys = w.agentKeys) := by
  induction aids with
  | nil => exact fun w r acc => ⟨rfl, rfl, rfl, rfl, rfl, rfl⟩
  | cons aid rest ih =>
    intro w r acc
    unfold World.decayAgents
    dsimp only
    obtain ⟨s1, c1, st1, i1, n1, k1⟩ :=
      decayBeliefs_frame aid (((w.lookupAgent aid).map fun a => a.beliefs).getD []) w r acc
    exact ⟨(ih _ _ _).1.trans s1, (ih _ _ _).2.1.trans c1, (ih _ _ _).2.2.1.trans st1,
      (ih _ _ _).2.2.2.1.trans i1, (ih _ _ _).2.2.2.2.1.trans n1, (ih _ _ _).2.2.2.2.2.trans k1⟩

theorem runStep_notRunning (w : World) (order : List Nat) (r : Rand)
    (h : w.status ≠ .running) :
    w.runStep order r = (w, r, .errorMsg "World is not running") := by
  unfold World.runStep
  rw [if_pos h]

/-- A tick never changes the world identity, config, graph, or any agent's
id/connection set. -/
theorem runStep_graphFrame (w : World) (order : List Nat) (r : Rand) :
    ((w.runStep order r).1.id = w.id)
  ∧ ((w.runStep order r).1.config = w.config)
  ∧ ((w.runStep order r).1.networkEdges = w.networkEdges)
  ∧ ((w.runStep order r).1.agentKeys = w.agentKeys) := by
  unfold World.runStep
  split
  · exact ⟨rfl, rfl, rfl, rfl⟩
  · dsimp only
    have hf1 := runSpreaders_frame order w r {}
    split
    · split
      · exact ⟨(decayAgents_frame _ _ _ _).2.2.2.1.trans hf1.2.2.2.1,
          (decayAgents_frame _ _ _ _).2.1.trans hf1.2.1,
          (decayAgents_frame _ _ _ _).2.2.2.2.1.trans hf1.2.2.2.2.1,
          (decayAgents_frame _ _ _ _).2.2.2.2.2.trans hf1.2.2.2.2.2⟩
      · exact ⟨(decayAgents_frame _ _ _ _).2.2.2.1.trans hf1.2.2.2.1,
          (decayAgents_frame _ _ _ _).2.1.trans hf1.2.1,
          (decayAgents_frame _ _ _ _).2.2.2.2.1.trans hf1.2.2.2.2.1,
          (decayAgents_frame _ _ _ _).2.2.2.2.2.trans hf1.2.2.2.2.2⟩
    · exact ⟨(decayAgents_frame _ _ _ _).2.2.2.1.trans hf1.2.2.2.1,
        (decayAgents_frame _ _ _ _).2.1.trans hf1.2.1,
        (decayAgents_frame _ _ _ _).2.2.2.2.1.trans hf1.2.2.2.2.1,
        (decayAgents_frame _ _ _ _).2.2.2.2.2.trans hf1.2.2.2.2.2⟩

/-- After one tick on a RUNNING world, the status is COMPLETED exactly
when the (truthy) `max_steps` bound is reached, RUNNING otherwise. -/
theorem runStep_status_running (w : World) (order : List Nat) (r : Rand)
    (h : w.status = .running) :
    ((w.runStep order r).1.status = .completed ∧ (w.runStep order r).1.completionDue)
    ∨ ((w.runStep order r).1.status = .running ∧ ¬(w.runStep order r).1.completionDue) := by
  unfold World.runStep
  rw [if_neg (by simp [h])]
  dsimp only
  have hf1 := runSpreaders_frame order w r {}
  have hst : (World.decayAgents (w.runSpreaders order r {}).1
      ((w.runSpreaders order r {}).1.agents.map fun a => a.id)
      (w.runSpreaders order r {}).2.1 (w.runSpreaders order r {}).2.2).1.status
      = WorldStatus.running :=
    ((decayAgents_frame _ _ _ _).1.trans hf1.1).trans h
  split
  · split
    · rename_i m hms hcond
      left
      refine ⟨rfl, ?_⟩
      unfold World.completionDue
      dsimp only
      rw [hms]
      exact hcond
    · rename_i m hms hcond
      right
      refine ⟨hst, ?_⟩
      unfold World.completionDue
      dsimp only
      rw [hms]
      exact hcond
  · rename_i hms
    right
    refine ⟨hst, ?_⟩
    unfold World.completionDue
    dsimp only
    rw [hms]
    exact fun hf => hf

theorem runStepsN_stuck (n : Nat) : ∀ (w : World) (orders : List (List Nat))
    (r : Rand) (results : List StepResult), w.status ≠ .running →
    (SimulationManager.runStepsN w n orders r results).1 = w := by
  induction n with
  | zero => exact fun w orders r results _ => rfl
  | succ k ih =>
    intro w orders r results h
    unfold SimulationManager.runStepsN
    rw [runStep_notRunning w (orders.headD []) r h]
    dsimp only
    exact ih w orders.tail r (results ++ [.errorMsg "World is not running"]) h

theorem runStepsN_id (n : Nat) : ∀ (w : World) (orders : List (List Nat))
    (r : Rand) (results : List StepResult),
    (SimulationManager.runStepsN w n orders r results).1.id = w.id := by
  induction n with
  | zero => exact fun w orders r results => rfl
  | succ k ih =>
    intro w orders r results
    unfold SimulationManager.runStepsN
    dsimp only
    exact (ih _ _ _ _).trans (runStep_graphFrame w (orders.headD []) r).1

theorem runStepsN_status (n : Nat) : ∀ (w : World) (orders : List (List Nat))
    (r : Rand) (results : List StepResult), w.status = .running → 1 ≤ n →
    ((SimulationManager.runStepsN w n orders r results).1.status = .completed ∧
      (SimulationManager.runStepsN w n orders r results).1.completionDue) ∨
    ((SimulationManager.runStepsN w n orders r results).1.status = .running ∧
      ¬(SimulationManager.runStepsN w n orders r results).1.completionDue) := by
  induction n with
  | zero => intro w orders r results _ hn; exact absurd hn (by decide)
  | succ k ih =>
    intro w orders r results h hn
    unfold SimulationManager.runStepsN
    dsimp only
    by_cases hk : k = 0
    · subst hk
      exact runStep_status_running w (orders.headD []) r h
    · rcases runStep_status_running w (orders.headD []) r h with ⟨hc, hd⟩ | ⟨hr, hd⟩
      · have hstuck := runStepsN_stuck k (w.runStep (orders.headD []) r).1 orders.tail
          (w.runStep (orders.headD []) r).2.1
          (results ++ [(w.runStep (orders.headD []) r).2.2]) (by rw [hc]; exact fun hx => by cases hx)
        rw [hstuck]
        exact .inl ⟨hc, hd⟩
      · exact ih _ _ _ _ hr (Nat.one_le_iff_ne_zero.mpr hk)

theorem find?_replaceWorld (l : List World) (wid : Nat) (w w3 : World)
    (hfind : l.find? (fun v => v.id = wid) = some w) (h3 : w3.id = wid) :
    (l.map (fun v => if v.id = wid then w3 else v)).find? (fun v => v.id = wid)
      = some w3 := by
  induction l with
  | nil => simp at hfind
  | cons a l ih =>
    by_cases ha : a.id = wid
    · rw [List.map_cons, if_pos ha, List.find?_cons_of_pos _ (by simpa using h3)]
    · rw [List.find?_cons_of_neg _ (by simpa using ha)] at hfind
      rw [List.map_cons, if_neg ha, List.find?_cons_of_neg _ (by simpa using ha)]
      exact ih hfind

/-- C10 amended: after `step_world(id, n)` with `n ≥ 1` on an existing
world, the status is PAUSED whenever it was PAUSED before the call (the
COMPLETED status assigned inside `run_step` is overwritten by the
restore); if it was not PAUSED (e.g. CREATED or RUNNING), the final status
is COMPLETED when the truthy `max_steps` bound has been reached and
RUNNING otherwise — not unconditionally RUNNING as claimed. -/
theorem step_world_status (m : SimulationManager) (wid n : Nat)
    (orders : List (List Nat)) (r : Rand) (w : World)
    (hw : m.lookupWorld wid = some w) (hn : 1 ≤ n) :
    ∃ w', (m.stepWorld wid n orders r).1.lookupWorld wid = some w' ∧
      (w.status = .paused → w'.status = .paused) ∧
      (w.status ≠ .paused →
        (w'.status = .completed ∧ w'.completionDue) ∨
        (w'.status = .running ∧ ¬w'.completionDue)) := by
  have hw' : m.worlds.find? (fun v => v.id = wid) = some w := hw
  have hid : w.id = wid := by simpa using List.find?_some hw'
  have hW1 : ({ w with status := WorldStatus.running } : World).status = .running := rfl
  unfold SimulationManager.stepWorld
  rw [show m.lookupWorld wid = some w from hw]
  dsimp only
  by_cases hp : w.status = .paused
  · rw [if_pos hp]
    refine ⟨{ (SimulationManager.runStepsN { w with status := .running } n orders r []).1
        with status := .paused }, ?_, fun _ => rfl, fun hnp => absurd hp hnp⟩
    unfold SimulationManager.lookupWorld
    dsimp only
    exact find?_replaceWorld m.worlds wid w _ hw'
      ((runStepsN_id n { w with status := .running } orders r []).trans hid)
  · rw [if_neg hp]
    refine ⟨(SimulationManager.runStepsN { w with status := .running } n orders r []).1,
      ?_, fun hp' => absurd hp' hp, fun _ => ?_⟩
    · unfold SimulationManager.lookupWorld
      dsimp only
      exact find?_replaceWorld m.worlds wid w _ hw'
        ((runStepsN_id n { w with status := .running } orders r []).trans hid)
    · exact runStepsN_status n { w with status := .running } orders r [] hW1 hn

/-- C10 counterexample: `step_world` on a CREATED world with
`max_steps = 1` ends COMPLETED, not RUNNING — the COMPLETED status set by
`run_step` is only overwritten when the prior status was PAUSED. -/
theorem step_world_completed_counterexample :
    let m : SimulationManager := { worlds := [{ id := 7, config := { maxSteps := some 1 } }] }
    ((((m.stepWorld 7 1 [[]] {}).1.lookupWorld 7).map World.status) = some .completed) ∧
    WorldStatus.completed ≠ WorldStatus.running := by
  with_unfolding_all decide

/-- C10 amended, witnessed on a PAUSED world with `max_steps = 1`: the
status is PAUSED again after the call. -/
theorem step_world_status_witness :
    (SimulationManager.lookupWorld
        { worlds := [{ id := 7, status := .paused, config := { maxSteps := some 1 } }] } 7
      = some { id := 7, status := .paused, config := { maxSteps := some 1 } }) ∧
    ∃ w', ((SimulationManager.stepWorld
        { worlds := [{ id := 7, status := .paused, config := { maxSteps := some 1 } }] }
        7 1 [[]] {}).1.lookupWorld 7 = some w') ∧
      (({ id := 7, status := .paused, config := { maxSteps := some 1 } } : World).status = .paused →
        w'.status = .paused) ∧
      (({ id := 7, status := .paused, config := { maxSteps := some 1 } } : World).status ≠ .paused →
        (w'.status = .completed ∧ w'.completionDue) ∨
        (w'.status = .running ∧ ¬w'.completionDue)) :=
  ⟨rfl,
   step_world_status { worlds := [{ id := 7, status := .paused, config := { maxSteps := some 1 } }] }
     7 1 [[]] {} { id := 7, status := .paused, config := { maxSteps := some 1 } } rfl (by decide)⟩

theorem addConnection_id (a : Agent) (x : Nat) : (a.addConnection x).id = a.id := by
  unfold Agent.addConnection
  split
  · split <;> rfl
  · rfl

theorem mem_connections_addConnection (a : Agent) (x y : Nat)
    (h : y ∈ a.connections) : y ∈ (a.addConnection x).connections := by
  unfold Agent.addConnection
  split
  · split
    · exact h
    · exact List.mem_append_left _ h
  · exact h

theorem self_not_mem_addConnection (a : Agent) (x : Nat)
    (h : a.id ∉ a.connections) : a.id ∉ (a.addConnection x).connections := by
  unfold Agent.addConnection
  split
  · rename_i hx
    split
    · exact h
    · intro hmem
      rcases List.mem_append.mp hmem with h1 | h1
      · exact h h1
      · exact hx (List.mem_singleton.mp h1).symm
  · exact h

theorem mem_addConnection_self (a : Agent) (x : Nat) (hx : x ≠ a.id) :
    x ∈ (a.addConnection x).connections := by
  unfold Agent.addConnection
  rw [if_pos hx]
  split
  · assumption
  · exact List.mem_append_right _ (List.mem_singleton_self x)

theorem exists_agent_update (l : List Agent) (g : Agent → Agent)
    (hgid : ∀ a : Agent, (g a).id = a.id)
    (hgconn : ∀ (a : Agent) (x : Nat), x ∈ a.connections → x ∈ (g a).connections)
    (u x : Nat) (h : ∃ a, a ∈ l ∧ a.id = u ∧ x ∈ a.connections) :
    ∃ a, a ∈ l.map g ∧ a.id = u ∧ x ∈ a.connections := by
  obtain ⟨a, ha, hid, hx⟩ := h
  exact ⟨g a, List.mem_map_of_mem g ha, (hgid a).trans hid, hgconn a x hx⟩

/-- The invariant only looks at the edge set and at each agent's id and
connections, so it transfers along worlds that agree on those. -/
theorem networkInvariant_congr (w' w : World)
    (he : w'.networkEdges = w.networkEdges) (hk : w'.agentKeys = w.agentKeys)
    (h : w.networkInvariant) : w'.networkInvariant := by
  have hmem : ∀ (u : Nat) (x : Nat),
      (∃ a, a ∈ w.agents ∧ a.id = u ∧ x ∈ a.connections) →
      ∃ a, a ∈ w'.agents ∧ a.id = u ∧ x ∈ a.connections := by
    intro u x ⟨a, ha, hid, hx⟩
    have : (a.id, a.connections) ∈ w'.agentKeys := by
      rw [hk]
      exact List.mem_map_of_mem _ ha
    obtain ⟨a', ha', heq⟩ := List.mem_map.mp this
    have h1 : a'.id = a.id := congrArg Prod.fst heq
    have h2 : a'.connections = a.connections := congrArg Prod.snd heq
    exact ⟨a', ha', h1.trans hid, h2 ▸ hx⟩
  constructor
  · intro p hp
    rw [he] at hp
    exact ⟨hmem p.1 p.2 ((h.1 p hp).1), hmem p.2 p.1 ((h.1 p hp).2)⟩
  · intro a' ha'
    have : (a'.id, a'.connections) ∈ w.agentKeys := by
      rw [← hk]
      exact List.mem_map_of_mem _ ha'
    obtain ⟨a, ha, heq⟩ := List.mem_map.mp this
    have h1 : a.id = a'.id := congrArg Prod.fst heq
    have h2 : a.connections = a'.connections := congrArg Prod.snd heq
    rw [← h1, ← h2]
    exact h.2 a ha

/-- Mirroring a list of well-formed temp-graph edges preserves the
network invariant and the id list of the agent map. -/
theorem applyTempEdges_invariant (agentIds : List Nat) (edges : List (Nat × Nat)) :
    ∀ w : World, w.networkInvariant → w.agents.map (fun a => a.id) = agentIds →
    agentIds.Nodup →
    (∀ p ∈ edges, p.1 ≠ p.2 ∧ p.1 < agentIds.length ∧ p.2 < agentIds.length) →
    (w.applyTempEdges agentIds edges).networkInvariant ∧
    (w.applyTempEdges agentIds edges).agents.map (fun a => a.id) = agentIds := by
  induction edges with
  | nil => exact fun w hinv hids _ _ => ⟨hinv, hids⟩
  | cons e rest ih =>
    rcases e with ⟨i, j⟩
    intro w hinv hids hnd htemp
    obtain ⟨hij, hi, hj⟩ := htemp (i, j) (List.mem_cons_self _ _)
    unfold World.applyTempEdges
    have hu : agentIds.getD i 0 = agentIds.get ⟨i, hi⟩ := List.getD_eq_getElem agentIds 0 hi
    have hv : agentIds.getD j 0 = agentIds.get ⟨j, hj⟩ := List.getD_eq_getElem agentIds 0 hj
    have huv : agentIds.getD i 0 ≠ agentIds.getD j 0 := by
      rw [hu, hv]
      exact fun hEq => hij (hnd.getElem_inj_iff.mp hEq)
    have humem : agentIds.getD i 0 ∈ agentIds := by
      rw [hu]; exact List.getElem_mem hi
    have hvmem : agentIds.getD j 0 ∈ agentIds := by
      rw [hv]; exact List.getElem_mem hj
    set u := agentIds.getD i 0
    set v := agentIds.getD j 0
    have hg1id : ∀ a : Agent, ((fun a => if a.id = u then a.addConnection v else a) a).id = a.id := by
      intro a
      dsimp only
      split
      · exact addConnection_id a v
      · rfl
    have hg2id : ∀ a : Agent, ((fun a => if a.id = v then a.addConnection u else a) a).id = a.id := by
      intro a
      dsimp only
      split
      · exact addConnection_id a u
      · rfl
    have hg1conn : ∀ (a : Agent) (x : Nat), x ∈ a.connections →
        x ∈ ((fun a => if a.id = u then a.addConnection v else a) a).connections := by
      intro a x hx
      dsimp only
      split
      · exact mem_connections_addConnection a v x hx
      · exact hx
    have hg2conn : ∀ (a : Agent) (x : Nat), x ∈ a.connections →
        x ∈ ((fun a => if a.id = v then a.addConnection u else a) a).connections := by
      intro a x hx
      dsimp only
      split
      · exact mem_connections_addConnection a u x hx
      · exact hx
    apply ih
    · -- the invariant after adding the edge (u, v) and mirroring it
      constructor
      · intro p hp
        rcases List.mem_append.mp hp with hp | hp
        · -- an old edge: both witnesses survive the two updates
          obtain ⟨h1, h2⟩ := hinv.1 p hp
          exact ⟨exists_agent_update _ _ hg2id hg2conn _ _
                  (exists_agent_update _ _ hg1id hg1conn _ _ h1),
                 exists_agent_update _ _ hg2id hg2conn _ _
                  (exists_agent_update _ _ hg1id hg1conn _ _ h2)⟩
        · -- the new edge (u, v)
          rw [List.mem_singleton.mp hp]
          constructor
          · -- u's endpoint: v is added into u's connections
            have hexu : ∃ a, a ∈ w.agents ∧ a.id = u := by
              have hm : u ∈ w.agents.map (fun a => a.id) := by rw [hids]; exact humem
              obtain ⟨a, ha, hau⟩ := List.mem_map.mp hm
              exact ⟨a, ha, hau⟩
            obtain ⟨a, ha, hau⟩ := hexu
            refine exists_agent_update _ _ hg2id hg2conn _ _ ?_
            refine ⟨a.addConnection v, ?_, ?_, ?_⟩
            · have h5 : (fun a => if a.id = u then a.addConnection v else a) a
                  = a.addConnection v := by
                dsimp only
                rw [hau]
                simp
              rw [← h5]
              exact List.mem_map_of_mem _ ha
            · exact (addConnection_id a v).trans hau
            · exact mem_addConnection_self a v (by rw [hau]; exact huv.symm)
          · -- v's endpoint: u is added into v's connections
            have hexv : ∃ b, b ∈ w.agents ∧ b.id = v := by
              have hm : v ∈ w.agents.map (fun a => a.id) := by rw [hids]; exact hvmem
              obtain ⟨b, hb, hbv⟩ := List.mem_map.mp hm
              exact ⟨b, hb, hbv⟩
            obtain ⟨b, hb, hbv⟩ := hexv
            have hb1 : (fun a => if a.id = u then a.addConnection v else a) b = b := by
              dsimp only
              rw [hbv, if_neg (Ne.symm huv)]
            refine ⟨b.addConnection u, ?_, ?_, ?_⟩
            · have h5 : (fun a => if a.id = v then a.addConnection u else a) b
                  = b.addConnection u := by
                dsimp only
                rw [hbv]
                simp
              rw [← h5, ← hb1]
              exact List.mem_map_of_mem _ (List.mem_map_of_mem _ hb)
            · exact (addConnection_id b u).trans hbv
            · exact mem_addConnection_self b u (by rw [hbv]; exact huv)
      · -- no agent ever holds its own id
        intro a ha
        have ha' : a ∈ ((w.agents.map (fun a => if a.id = u then a.addConnection v else a)).map
            (fun a => if a.id = v then a.addConnection u else a)) := ha
        rw [List.mem_map] at ha'
        obtain ⟨a1, ha1, heq1⟩ := ha'
        rw [List.mem_map] at ha1
        obtain ⟨a0, ha0, heq0⟩ := ha1
        have h0 := hinv.2 a0 ha0
        have hx : (if a0.id = u then a0.addConnection v else a0).id ∉
            (if a0.id = u then a0.addConnection v else a0).connections := by
          by_cases hc : a0.id = u
          · rw [if_pos hc, addConnection_id]
            exact self_not_mem_addConnection a0 v h0
          · rw [if_neg hc]
            exact h0
        have hxx : ((fun a => if a.id = v then a.addConnection u else a)
              ((fun a => if a.id = u then a.addConnection v else a) a0)).id ∉
            ((fun a => if a.id = v then a.addConnection u else a)
              ((fun a => if a.id = u then a.addConnection v else a) a0)).connections := by
          dsimp only
          by_cases hc : (if a0.id = u then a0.addConnection v else a0).id = v
          · rw [if_pos hc, addConnection_id]
            exact self_not_mem_addConnection _ u hx
          · rw [if_neg hc]
            exact hx
        rw [← heq1, ← heq0]
        exact hxx
    · -- agent ids unchanged by the two updates
      show ((w.agents.map (fun a => if a.id = u then a.addConnection v else a)).map
          (fun a => if a.id = v then a.addConnection u else a)).map (fun a => a.id) = agentIds
      rw [List.map_map, List.map_map, ← hids]
      refine List.map_congr_left fun a _ => ?_
      show ((fun b => if b.id = v then b.addConnection u else b)
        ((fun b => if b.id = u then b.addConnection v else b) a)).id = a.id
      exact (hg2id _).trans (hg1id a)
    · exact hnd
    · exact fun p hp => htemp p (List.mem_cons_of_mem _ hp)

/-- Ticks preserve the network invariant: a tick never touches the edge
set nor any agent's id/connection set. -/
theorem runTicks_invariant (ticks : List (List Nat × Rand)) :
    ∀ w : World, w.networkInvariant → (w.runTicks ticks).networkInvariant := by
  induction ticks with
  | nil => exact fun w h => h
  | cons t ts ih =>
    intro w h
    unfold World.runTicks
    exact ih _ (networkInvariant_congr _ w (runStep_graphFrame w t.1 t.2).2.2.1
      (runStep_graphFrame w t.1 t.2).2.2.2 h)

/-- Every edge produced by the GEO_LOCAL candidate loop for agent `i`
joins two distinct in-range indices. -/
theorem geoLocalAttempts_wf (regions : List String) (n i : Nat) (hi : i < n) :
    ∀ (k : Nat) (r : Rand) (es : List (Nat × Nat)),
    (∀ p ∈ es, p.1 ≠ p.2 ∧ p.1 < n ∧ p.2 < n) →
    ∀ p ∈ (geoLocalAttempts regions n i k r es).1, p.1 ≠ p.2 ∧ p.1 < n ∧ p.2 < n := by
  intro k
  induction k with
  | zero => exact fun r es hes p hp => hes p hp
  | succ m ih =>
    intro r es hes
    unfold geoLocalAttempts
    rcases hnf : r.nextInt with ⟨jraw, r1⟩
    dsimp only
    split
    · rename_i hij
      have hes' : ∀ p ∈ es ++ [(i, jraw % n)], p.1 ≠ p.2 ∧ p.1 < n ∧ p.2 < n := by
        intro p hp
        rcases List.mem_append.mp hp with hp | hp
        · exact hes p hp
        · rw [List.mem_singleton.mp hp]
          exact ⟨hij, hi, Nat.mod_lt _ (by omega)⟩
      split
      · split
        · exact ih _ _ hes'
        · exact ih _ _ hes
      · split
        · exact ih _ _ hes'
        · exact ih _ _ hes
    · exact ih _ _ hes

theorem geoLocalEdgesAux_wf (regions : List String) (n ctm : Nat) :
    ∀ (idxs : List Nat), (∀ i ∈ idxs, i < n) →
    ∀ (r : Rand) (es : List (Nat × Nat)),
    (∀ p ∈ es, p.1 ≠ p.2 ∧ p.1 < n ∧ p.2 < n) →
    ∀ p ∈ (geoLocalEdgesAux regions n ctm idxs r es).1, p.1 ≠ p.2 ∧ p.1 < n ∧ p.2 < n := by
  intro idxs
  induction idxs with
  | nil => exact fun _ r es hes p hp => hes p hp
  | cons i rest ih =>
    intro hidx r es hes
    unfold geoLocalEdgesAux
    rcases hga : geoLocalAttempts regions n i ctm r es with ⟨es1, r1⟩
    dsimp only
    apply ih (fun x hx => hidx x (List.mem_cons_of_mem _ hx))
    intro p hp
    have := geoLocalAttempts_wf regions n i (hidx i (List.mem_cons_self _ _)) ctm r es hes p
    rw [hga] at this
    exact this hp

/-- The GEO_LOCAL temp graph never contains a self loop or an
out-of-range index — so the generic build theorem below applies to it. -/
theorem geoLocalTempEdges_wf (regions : List String) (n : Nat) (density : ℚ) (r : Rand) :
    ∀ p ∈ (geoLocalTempEdges regions n density r).1,
      p.1 ≠ p.2 ∧ p.1 < n ∧ p.2 < n := by
  unfold geoLocalTempEdges
  exact geoLocalEdgesAux_wf regions n _ (List.range n) (fun i hi => List.mem_range.mp hi)
    r [] (fun p hp => absurd hp (List.not_mem_nil p))

/-- C9: starting from a fresh population (empty connection sets, empty
graph, distinct agent ids), mirroring any temp graph whose edges join two
distinct in-range indices — as produced by the Barabási–Albert,
Watts–Strogatz and Erdős–Rényi generators, and by the GEO_LOCAL loop
(`geoLocalTempEdges_wf`) — establishes the §8 invariant, and it still
holds after every subsequent tick: every graph edge is mirrored in both
endpoints' connection sets, and no agent is its own connection. -/
theorem network_invariant_after_build_and_ticks (w : World)
    (tempEdges : List (Nat × Nat)) (ticks : List (List Nat × Rand))
    (hconn : ∀ a ∈ w.agents, a.connections = [])
    (hedges : w.networkEdges = [])
    (hnodup : (w.agents.map (fun a => a.id)).Nodup)
    (htemp : ∀ p ∈ tempEdges, p.1 ≠ p.2 ∧ p.1 < w.agents.length ∧ p.2 < w.agents.length) :
    ((w.createNetwork tempEdges).runTicks ticks).networkInvariant := by
  have hbase : w.networkInvariant := by
    constructor
    · intro p hp
      rw [hedges] at hp
      cases hp
    · intro a ha
      rw [hconn a ha]
      exact List.not_mem_nil _
  have hlen : (w.agents.map (fun a => a.id)).length = w.agents.length :=
    List.length_map _ _
  have hbuild := applyTempEdges_invariant (w.agents.map fun a => a.id) tempEdges w hbase rfl
    hnodup (fun p hp => by rw [hlen]; exact htemp p hp)
  exact runTicks_invariant ticks _ hbuild.1

/-- C9 witnessed: a two-agent world, one mirrored edge, one tick in which
idea 100 spreads across it. -/
theorem network_invariant_after_build_and_ticks_witness :
    let w : World :=
      { id := 0, status := .running,
        config := { mutationRate := 0, decayRate := 0 },
        agents :=
          [{ id := 10, worldId := 0, profile := { interests := ["x"], influence := 1, openness := 1 },
             beliefs := [100] },
           { id := 11, worldId := 0, profile := { interests := ["x"], influence := 1, openness := 1 } }],
        ideas := [{ id := 100, worldId := 0, viralityScore := 1, emotionalValence := 1, complexity := 0 }],
        nextId := 1000 }
    (∀ a ∈ w.agents, a.connections = []) ∧
    w.networkEdges = [] ∧
    (w.agents.map (fun a => a.id)).Nodup ∧
    (∀ p ∈ [((0 : Nat), (1 : Nat))], p.1 ≠ p.2 ∧ p.1 < w.agents.length ∧ p.2 < w.agents.length) ∧
    ((w.createNetwork [(0, 1)]).runTicks [([10], { floats := [0, 1] })]).networkInvariant :=
  ⟨by decide, rfl, by decide, by decide,
   network_invariant_after_build_and_ticks _ [(0, 1)] [([10], { floats := [0, 1] })]
     (by decide) rfl (by decide) (by decide)⟩

end ViralityEngine
